import Mathlib

/-!
Shallow embedding of the planning/coordination core of the mapc2022-MMD
multi-agent system (Python), for verifying its natural-language
specification.

Conventions used throughout:
* Python ints are modelled as `Int`, Python floats as `ℚ` (exact
  arithmetic; float rounding is immaterial to the verified claims).
  Values of the form `q + sqrt r` (A* priorities) are modelled exactly by
  the pair `SqExpr` with an exact decidable order.
* Python `%` is floor-mod, which is `Int.fmod` (also for a negative
  modulus, as used by `Coordinate.getRelativeCoordinate`).
* Python dicts are association lists (`List (K × V)`): unique keys,
  iteration in insertion order, in-place update keeps the position,
  fresh keys are appended at the end — exactly Python's dict semantics.
  Python sets are lists used only through membership.
* The process-wide statics `Coordinate.maxWidth/maxHeight` are passed
  explicitly as a `Dims` value.  They are mutated only between the
  modelled operations (agentSchedulerServer/intentionGenerator), so every
  operation sees a constant `Dims`.
-/

namespace MMD

/-! Enumerations, from data/coreData/enums.py -/

/-- Entity type on the map (enums.py, MapValueEnum). -/
inductive MapValueEnum where
  | EMPTY
  | OBSTACLE
  | AGENT
  | DISPENSER
  | BLOCK
  | MARKER
  | UNKNOWN
deriving DecidableEq

/-- Global direction (enums.py, Direction). -/
inductive Direction where
  | NORTH
  | EAST
  | SOUTH
  | WEST
deriving DecidableEq

/-- Numeric value of a direction, as in the Python enum. -/
def Direction.val : Direction → Int
  | .NORTH => 0
  | .EAST => 1
  | .SOUTH => 2
  | .WEST => 3

/-- Opposite direction (enums.py, Direction.opposite). -/
def Direction.opposite : Direction → Direction
  | .NORTH => .SOUTH
  | .EAST => .WEST
  | .SOUTH => .NORTH
  | .WEST => .EAST

/-- Direction.isOppositeDirection: (self.value + other.value) % 2 == 0.
Note that this is also true for equal directions; all call sites test
isSameDirection first. -/
def Direction.isOppositeDirection (a b : Direction) : Bool :=
  (a.val + b.val) % 2 = 0

/-- Direction.isSameDirection: equality of the enum values. -/
def Direction.isSameDirection (a b : Direction) : Bool :=
  a = b

/-- Direction.getAdjacentDirections: (Direction((v+1) % 4), Direction((v-1) % 4)),
written out as a table. -/
def Direction.getAdjacentDirections : Direction → Direction × Direction
  | .NORTH => (.EAST, .WEST)
  | .EAST => (.SOUTH, .NORTH)
  | .SOUTH => (.WEST, .EAST)
  | .WEST => (.NORTH, .SOUTH)

/-- Rotation sense (enums.py, RotateDirection). -/
inductive RotateDirection where
  | CLOCKWISE
  | COUNTERCLOCKWISE
deriving DecidableEq

/-! Map values, from data/coreData/mapValue.py -/

/-- Cell information: entity type, detail string, and the simulation step
at which it was observed (mapValue.py, MapValue). -/
structure MapValue where
  value : MapValueEnum
  details : String
  simulationStep : Int
deriving DecidableEq

/-- MapValue.__eq__ from the source: type and step must agree, and the
details must agree unless the left operand is an agent recorded at step 0.
This is the (asymmetric) comparison used by the identification pass;
structural equality is kept separately as DecidableEq. -/
def MapValue.pyEq (a b : MapValue) : Bool :=
  a.value = b.value ∧ a.simulationStep = b.simulationStep ∧
    (a.details = b.details ∨ (a.value = MapValueEnum.AGENT ∧ a.simulationStep = 0))

/-! Association-list model of Python dicts -/

/-- Lookup of the value stored under a key (first entry wins; keys are
unique in any list built by the operations below). -/
def dictGet? {K V : Type} [DecidableEq K] : List (K × V) → K → Option V
  | [], _ => none
  | (k', v) :: rest, k => if k' = k then some v else dictGet? rest k

/-- Membership test for a key, Python's `k in d`. -/
def dictContains {K V : Type} [DecidableEq K] (d : List (K × V)) (k : K) : Bool :=
  (dictGet? d k).isSome

/-- Python's `d[k] = v`: replace in place if the key exists (keeping its
position, as Python dicts do), otherwise append at the end. -/
def dictInsert {K V : Type} [DecidableEq K] : List (K × V) → K → V → List (K × V)
  | [], k, v => [(k, v)]
  | (k', v') :: rest, k, v =>
    if k' = k then (k, v) :: rest else (k', v') :: dictInsert rest k v

/-- Python's `del d[k]`: remove the (unique) entry with the given key. -/
def dictErase {K V : Type} [DecidableEq K] : List (K × V) → K → List (K × V)
  | [], _ => []
  | (k', v') :: rest, k =>
    if k' = k then rest else (k', v') :: dictErase rest k

/-- Keys of a dict in iteration order. -/
def dictKeys {K V : Type} (d : List (K × V)) : List K :=
  d.map Prod.fst

/-- Values of a dict in iteration order. -/
def dictValues {K V : Type} (d : List (K × V)) : List V :=
  d.map Prod.snd

/-- Insertion step of the stable sort below: the element goes after every
element whose key is not greater, so equal keys keep their original
order. -/
def insertSortedBy {α : Type} (le : α → α → Bool) (x : α) : List α → List α
  | [] => [x]
  | y :: ys => if le y x then y :: insertSortedBy le x ys else x :: y :: ys

/-- Stable sort modelling Python's sorted (which is stable): on a total
preorder comparator every stable sort produces the same list. -/
def stableSortBy {α : Type} (le : α → α → Bool) (l : List α) : List α :=
  l.foldl (fun acc x => insertSortedBy le x acc) []

/-- Python set.update: insert each element that is not yet present. -/
def setUpdate {α : Type} [DecidableEq α] (s : List α) (ext : List α) : List α :=
  ext.foldl (fun acc a => if a ∈ acc then acc else acc ++ [a]) s

/-! Coordinates, from data/coreData/coordinate.py -/

/-- Integer grid coordinate. -/
structure Coordinate where
  x : Int
  y : Int
deriving DecidableEq

/-- The process-wide dimension statics Coordinate.maxWidth/maxHeight,
passed explicitly. -/
structure Dims where
  maxWidth : Option Int
  maxHeight : Option Int
deriving DecidableEq

/-- One axis of Coordinate.normalize: reduce by the dimension when it is
known (Python's `%`, i.e. floor-mod). -/
def axisNorm (w : Option Int) (v : Int) : Int :=
  match w with
  | none => v
  | some w => v.fmod w

/-- Coordinate.normalize: each axis is reduced independently when its
dimension is known. -/
def Coordinate.normalize (g : Dims) (c : Coordinate) : Coordinate :=
  ⟨axisNorm g.maxWidth c.x, axisNorm g.maxHeight c.y⟩

/-- Application of a normalize flag, as the Coordinate constructor does. -/
def Coordinate.normIf (g : Dims) (norm : Bool) (c : Coordinate) : Coordinate :=
  if norm then c.normalize g else c

/-- Coordinate.origo. -/
def Coordinate.origo : Coordinate := ⟨0, 0⟩

/-- Displacement of a single movement step (the four cases of
Coordinate.move). -/
def Coordinate.moveOne (c : Coordinate) : Direction → Coordinate
  | .NORTH => ⟨c.x, c.y - 1⟩
  | .EAST => ⟨c.x + 1, c.y⟩
  | .SOUTH => ⟨c.x, c.y + 1⟩
  | .WEST => ⟨c.x - 1, c.y⟩

/-- Coordinate.move: apply every direction, then normalize once if asked. -/
def Coordinate.move (g : Dims) (c : Coordinate) (directions : List Direction)
    (norm : Bool) : Coordinate :=
  Coordinate.normIf g norm (directions.foldl Coordinate.moveOne c)

/-- Coordinate.negate (never normalizes). -/
def Coordinate.negate (c : Coordinate) : Coordinate := ⟨-c.x, -c.y⟩

/-- Coordinate.getMovedCoord: copies the coordinate through the
constructor (normalizing it when the flag is set) and then moves. -/
def Coordinate.getMovedCoord (g : Dims) (c : Coordinate) (directions : List Direction)
    (norm : Bool) : Coordinate :=
  Coordinate.move g (Coordinate.normIf g norm c) directions norm

/-- Coordinate.getShiftedCoordinate: componentwise sum, normalized when
the flag is set. -/
def Coordinate.getShiftedCoordinate (g : Dims) (c off : Coordinate) (norm : Bool) :
    Coordinate :=
  Coordinate.normIf g norm ⟨c.x + off.x, c.y + off.y⟩

/-- Coordinate.getRotateDirection, for relative coordinates. -/
def Coordinate.getRotateDirection (c : Coordinate) : Direction → RotateDirection
  | .NORTH => if c.x > 0 then .CLOCKWISE else .COUNTERCLOCKWISE
  | .EAST => if c.y > 0 then .CLOCKWISE else .COUNTERCLOCKWISE
  | .SOUTH => if c.x > 0 then .COUNTERCLOCKWISE else .CLOCKWISE
  | .WEST => if c.y > 0 then .COUNTERCLOCKWISE else .CLOCKWISE

/-- Coordinate.rotateRelCoord / getRotatedRelCoord. -/
def Coordinate.getRotatedRelCoord (c : Coordinate) : RotateDirection → Coordinate
  | .CLOCKWISE => ⟨-c.y, c.x⟩
  | .COUNTERCLOCKWISE => ⟨c.y, -c.x⟩

/-- One axis of Coordinate.getRelativeCoordinate: of the two Python
residues `d % w` and `d % (-w)` keep the one with strictly smaller
absolute value (ties go to the negative residue, as in the source). -/
def relAxis (w : Option Int) (d : Int) : Int :=
  match w with
  | none => d
  | some w =>
    let p := d.fmod w
    let n := d.fmod (-w)
    if |p| < |n| then p else n

/-- Coordinate.getRelativeCoordinate: per-axis wrap-aware difference. -/
def Coordinate.getRelativeCoordinate (g : Dims) (a b : Coordinate) : Coordinate :=
  ⟨relAxis g.maxWidth (b.x - a.x), relAxis g.maxHeight (b.y - a.y)⟩

/-- Coordinate.manhattanDistance (an integer, though the source types it
as float). -/
def Coordinate.manhattanDistance (g : Dims) (a b : Coordinate) : Int :=
  let r := Coordinate.getRelativeCoordinate g a b
  |r.x| + |r.y|

/-- Square of Coordinate.distance (the source returns the float square
root; we keep the exact square and take roots only at comparison or
statement level, where the monotonicity of the square root makes the two
presentations agree). -/
def Coordinate.distSq (g : Dims) (a b : Coordinate) : Int :=
  let r := Coordinate.getRelativeCoordinate g a b
  r.x ^ 2 + r.y ^ 2

/-- Coordinate.getDirection: principal direction of the wrap-aware
relative coordinate from start to end. -/
def Coordinate.getDirection (g : Dims) (start stop : Coordinate) : Direction :=
  let relCoord := Coordinate.getRelativeCoordinate g start stop
  if relCoord.x = 0 ∧ relCoord.y > 0 then .SOUTH
  else if relCoord.x > 0 ∧ relCoord.y = 0 then .EAST
  else if relCoord.x = 0 ∧ relCoord.y < 0 then .NORTH
  else if relCoord.x < 0 ∧ relCoord.y = 0 then .WEST
  else if |relCoord.x| ≥ |relCoord.y| then
    (if relCoord.x > 0 then .EAST else .WEST)
  else
    (if relCoord.y > 0 then .SOUTH else .NORTH)

/-- Inclusive integer range, Python's range(lo, hi + 1). -/
def intRange (lo hi : Int) : List Int :=
  (List.range (hi + 1 - lo).toNat).map (fun i => lo + i)

/-- Coordinate.neighbors: all cells of the (2r+1)-square whose wrap-aware
Manhattan distance is between the two bounds, minus the coordinate
itself. -/
def Coordinate.neighbors (g : Dims) (c : Coordinate) (norm : Bool)
    (searchRange distant : Int) : List Coordinate :=
  let ns := (intRange (c.x - searchRange) (c.x + searchRange)).flatMap (fun i =>
    (intRange (c.y - searchRange) (c.y + searchRange)).filterMap (fun j =>
      let coord := Coordinate.normIf g norm ⟨i, j⟩
      if Coordinate.manhattanDistance g c coord ≤ searchRange ∧
          distant ≤ Coordinate.manhattanDistance g c coord then
        some coord
      else none))
  ns.erase c

/-- Coordinate.getSurroundingNeighbors: the four direct neighbors plus
the four diagonal ones. -/
def Coordinate.getSurroundingNeighbors (g : Dims) (c : Coordinate) (norm : Bool) :
    List Coordinate :=
  let diag := fun (dx dy : Int) =>
    Coordinate.getShiftedCoordinate g c (Coordinate.normIf g norm ⟨dx, dy⟩) true
  Coordinate.neighbors g c norm 1 0 ++ [diag 1 1, diag 1 (-1), diag (-1) 1, diag (-1) (-1)]

/-! Dispenser registry, from data/map/dispenserMap.py -/

/-- Dispenser coordinates grouped by block type (dispenserMap.py).  The
per-type Python set is a duplicate-free list; only membership is ever
used on it. -/
structure DispenserMap where
  dispensers : List (String × List Coordinate)
deriving DecidableEq

/-- DispenserMap.addDispenser: create the type bucket on first use, then
add the coordinate to its set. -/
def DispenserMap.addDispenser (dm : DispenserMap) (type : String) (c : Coordinate) :
    DispenserMap :=
  match dictGet? dm.dispensers type with
  | none => ⟨dm.dispensers ++ [(type, [c])]⟩
  | some coords =>
    ⟨dictInsert dm.dispensers type (if c ∈ coords then coords else coords ++ [c])⟩

/-- DispenserMap.getAllDispenserCoords. -/
def DispenserMap.getAllDispenserCoords (dm : DispenserMap) : List Coordinate :=
  (dictValues dm.dispensers).flatten

/-- DispenserMap.getDispenserMapValueByCoord: the first type (in dict
order) whose bucket holds the coordinate.  The source raises IndexError
when the coordinate is not a dispenser; all callers guard by a dispenser
membership test first, so the fallback value is never produced there. -/
def DispenserMap.getDispenserMapValueByCoord (dm : DispenserMap) (c : Coordinate) :
    MapValue :=
  match dm.dispensers.find? (fun tc => tc.2.contains c) with
  | some tc => ⟨MapValueEnum.DISPENSER, tc.1, 0⟩
  | none => ⟨MapValueEnum.UNKNOWN, "", 0⟩

/-! Map update snapshots, from data/map/mapUpdateData.py -/

/-- Percept data used to update a map (mapUpdateData.py, MapUpdateData). -/
structure MapUpdateData where
  things : List (Coordinate × MapValue)
  markers : List (Coordinate × MapValue)
  dispensers : List (Coordinate × MapValue)
  goalZones : List Coordinate
  roleZones : List Coordinate

/-! The dynamic map, from data/map/dynamicMap.py -/

/-- Simulation map (dynamicMap.py, DynamicMap).  The fields that only
serve components outside the verified claims (agentId,
unknownCoordSearchMaxIter, the reservation semaphore) are omitted; the
semaphore disappears because the embedding is single-threaded (the
source takes it around the reserve operation, making that operation
atomic, which is exactly how it is modelled here). -/
structure DynamicMap where
  id : Int
  markerPurgeInterval : Int
  agentCoordinates : List (String × Coordinate)
  agentStartingCoordinates : List (String × Coordinate)
  agentCoordReservations : List (String × List Coordinate)
  store : List (Coordinate × MapValue)
  markers : List (Coordinate × MapValue)
  dispenserMap : DispenserMap
  roleZones : List Coordinate
  goalZones : List Coordinate
deriving DecidableEq

/-- DynamicMap.getMapValue: marker (if enabled), else the stored entity
with the dispenser override, else unknown. -/
def DynamicMap.getMapValue (m : DynamicMap) (key : Coordinate)
    (needMarker needDispenser : Bool) : MapValue :=
  match (if needMarker then dictGet? m.markers key else none) with
  | some mv => mv
  | none =>
    match dictGet? m.store key with
    | some value =>
      let isDispenser := key ∈ m.dispenserMap.getAllDispenserCoords
      if needDispenser ∧ isDispenser then
        m.dispenserMap.getDispenserMapValueByCoord key
      else if isDispenser ∧ value.value ∉ [MapValueEnum.AGENT, MapValueEnum.BLOCK] then
        m.dispenserMap.getDispenserMapValueByCoord key
      else value
    | none => ⟨MapValueEnum.UNKNOWN, "", 0⟩

/-- DynamicMap.getMapValueEnum. -/
def DynamicMap.getMapValueEnum (m : DynamicMap) (key : Coordinate)
    (needMarker needDispenser : Bool) : MapValueEnum :=
  (m.getMapValue key needMarker needDispenser).value

/-- DynamicMap.isCoordinateReservedForTask. -/
def DynamicMap.isCoordinateReservedForTask (m : DynamicMap) (c : Coordinate) : Bool :=
  c ∈ (dictValues m.agentCoordReservations).flatten

/-- DynamicMap.getAgentCoordinate: a normalized copy of the agent's
current coordinate (Coordinate.copy normalizes by default).  The source
raises KeyError for an unregistered agent; the default is never used at
the verified call sites. -/
def DynamicMap.getAgentCoordinate (g : Dims) (m : DynamicMap) (agentId : String) :
    Coordinate :=
  Coordinate.normalize g ((dictGet? m.agentCoordinates agentId).getD Coordinate.origo)

/-- First pass of DynamicMap.addRange over updateData.things: update the
cell store (newer step wins), drop markers that were observed to have
disappeared and collect goal zones that disappeared. -/
def DynamicMap.addRangeThingsStep (u : MapUpdateData)
    (acc : DynamicMap × List Coordinate) (cv : Coordinate × MapValue) :
    DynamicMap × List Coordinate :=
  let m := acc.1
  let store' :=
    match dictGet? m.store cv.1 with
    | none => dictInsert m.store cv.1 cv.2
    | some old =>
      if cv.2.simulationStep > old.simulationStep then dictInsert m.store cv.1 cv.2
      else m.store
  let markers' :=
    if dictContains m.markers cv.1 ∧ ¬ dictContains u.markers cv.1 then
      dictErase m.markers cv.1
    else m.markers
  let dele' :=
    if cv.1 ∈ m.goalZones ∧ cv.1 ∉ u.goalZones then acc.2 ++ [cv.1] else acc.2
  ({ m with store := store', markers := markers' }, dele')

/-- DynamicMap.deleteGoalZones: remove each listed goal zone. -/
def DynamicMap.deleteGoalZonesFrom (goalZones : List Coordinate)
    (dele : List Coordinate) : List Coordinate :=
  dele.foldl (fun gz c => gz.erase c) goalZones

/-- DynamicMap.addRange: fold the percept snapshot into the map — things
(newer step wins), new markers, marker purge (the source iterates over
the keys deleting every marker whose age reached the interval, which is
the filter written here), dispensers, role zones, disappeared and new
goal zones. -/
def DynamicMap.addRange (m : DynamicMap) (simulationStep : Int) (u : MapUpdateData) :
    DynamicMap :=
  let p1 := u.things.foldl (DynamicMap.addRangeThingsStep u) (m, [])
  let m1 := p1.1
  let markers2 := u.markers.foldl (fun mk cv => dictInsert mk cv.1 cv.2) m1.markers
  let markers3 := markers2.filter
    (fun cv => ¬ (simulationStep - cv.2.simulationStep ≥ m.markerPurgeInterval))
  let disp := u.dispensers.foldl
    (fun dm cv => dm.addDispenser cv.2.details cv.1) m1.dispenserMap
  let roleZones' := setUpdate m1.roleZones u.roleZones
  let goalZones1 := DynamicMap.deleteGoalZonesFrom m1.goalZones p1.2
  let goalZones2 := setUpdate goalZones1 u.goalZones
  { m1 with
    markers := markers3
    dispenserMap := disp
    roleZones := roleZones'
    goalZones := goalZones2 }

/-- Folding step shared by the store and marker parts of
DynamicMap.merge: insert the re-keyed entry, and on a collision keep the
newer simulation step. -/
def mergeShiftedEntry (shift : Coordinate → Coordinate)
    (st : List (Coordinate × MapValue)) (cv : Coordinate × MapValue) :
    List (Coordinate × MapValue) :=
  let sc := shift cv.1
  match dictGet? st sc with
  | none => dictInsert st sc cv.2
  | some old =>
    if old.simulationStep < cv.2.simulationStep then dictInsert st sc cv.2 else st

/-- Dispenser part of DynamicMap.merge: add every re-keyed dispenser of
the other map under its type. -/
def mergeDispensers (shift : Coordinate → Coordinate)
    (bdisp : List (String × List Coordinate)) (dm0 : DispenserMap) : DispenserMap :=
  bdisp.foldl (fun dm tc =>
    tc.2.foldl (fun dm c => dm.addDispenser tc.1 (shift c)) dm) dm0

/-- DynamicMap.merge: fold the other map into this one, re-keying every
coordinate by the translation anchorSelf − anchorOther (each re-keyed
coordinate is built by the normalizing constructor).  Returns the updated
map together with the returned translation (built with normalize=False
in the source). -/
def DynamicMap.merge (g : Dims) (self other : DynamicMap)
    (othersCoordinateInMyMap othersCoordinateInOthersMap : Coordinate) :
    DynamicMap × Coordinate :=
  let xDifference := othersCoordinateInMyMap.x - othersCoordinateInOthersMap.x
  let yDifference := othersCoordinateInMyMap.y - othersCoordinateInOthersMap.y
  let shift := fun (c : Coordinate) =>
    Coordinate.normalize g ⟨c.x + xDifference, c.y + yDifference⟩
  let store' := other.store.foldl (mergeShiftedEntry shift) self.store
  let markers' := other.markers.foldl (mergeShiftedEntry shift) self.markers
  let agentCoords' := other.agentCoordinates.foldl
    (fun d av => dictInsert d av.1 (shift av.2)) self.agentCoordinates
  let agentStarts' := other.agentStartingCoordinates.foldl
    (fun d av => dictInsert d av.1 (shift av.2)) self.agentStartingCoordinates
  let reservations' := other.agentCoordReservations.foldl
    (fun d av => dictInsert d av.1 (av.2.map shift)) self.agentCoordReservations
  let disp' := mergeDispensers shift other.dispenserMap.dispensers self.dispenserMap
  let roleZones' := setUpdate self.roleZones (other.roleZones.map shift)
  let goalZones' := setUpdate self.goalZones (other.goalZones.map shift)
  ({ self with
     store := store'
     markers := markers'
     agentCoordinates := agentCoords'
     agentStartingCoordinates := agentStarts'
     agentCoordReservations := reservations'
     dispenserMap := disp'
     roleZones := roleZones'
     goalZones := goalZones' },
   ⟨xDifference, yDifference⟩)

/-- Cells recorded by DynamicMap.reserveCoordinatesForTask: the
surrounding neighbors of the goal zone and of every block cell. -/
def taskReservedCells (g : Dims) (goalZone : Coordinate)
    (blockRelCoords : List Coordinate) : List Coordinate :=
  (goalZone ::
      blockRelCoords.map (fun bc => Coordinate.getShiftedCoordinate g goalZone bc true)).flatMap
    (fun c => Coordinate.getSurroundingNeighbors g c true)

/-- Cells examined by DynamicMap.getFirstFreeGoalZoneForTask: the
surrounding neighbors of the block cells only — the goal zone's own
surroundings are reserved but never checked. -/
def taskCheckedCells (g : Dims) (goalZone : Coordinate)
    (blockRelCoords : List Coordinate) : List Coordinate :=
  (blockRelCoords.map (fun bc => Coordinate.getShiftedCoordinate g goalZone bc true)).flatMap
    (fun c => Coordinate.getSurroundingNeighbors g c true)

/-- DynamicMap.reserveCoordinatesForTask: reserve the goal zone, the
block cells, and all their surrounding neighbors for the agent. -/
def DynamicMap.reserveCoordinatesForTask (g : Dims) (m : DynamicMap) (agentId : String)
    (goalZone : Coordinate) (blockRelCoords : List Coordinate) : DynamicMap :=
  let reservedCoords := taskReservedCells g goalZone blockRelCoords
  let old := (dictGet? m.agentCoordReservations agentId).getD []
  { m with agentCoordReservations :=
      dictInsert m.agentCoordReservations agentId (old ++ reservedCoords) }

/-- DynamicMap.freeCoordinatesFromTask. -/
def DynamicMap.freeCoordinatesFromTask (m : DynamicMap) (agentId : String) : DynamicMap :=
  { m with agentCoordReservations := dictInsert m.agentCoordReservations agentId [] }

/-- DynamicMap.getFirstFreeGoalZoneForTask: first zone of the candidate
list whose block cells' surrounding neighbors are all unreserved and
dispenser-free. -/
def DynamicMap.getFirstFreeGoalZoneForTask (g : Dims) (m : DynamicMap)
    (goalZones : List Coordinate) (blockRelCoords : List Coordinate) :
    Option Coordinate :=
  let reservedCoords := (dictValues m.agentCoordReservations).flatten
  goalZones.find? (fun goalZone =>
    let reserveableCoords := taskCheckedCells g goalZone blockRelCoords
    reserveableCoords.all (fun rc =>
      rc ∉ reservedCoords ∧ m.getMapValueEnum rc false true ≠ MapValueEnum.DISPENSER))

/-- DynamicMap.tryReserveCloserGoalZoneForTask: candidate zones are those
that are the agent's own cell or that are unoccupied and (when a zone is
already held) strictly closer, sorted by distance; on success the agent's
previous claims are released and the new ones recorded.  The source holds
the reservation semaphore around the whole operation, so it is modelled
as one atomic step on the map.  Sorting compares the exact squared
distances, which orders identically to the source's float square
roots. -/
def DynamicMap.tryReserveCloserGoalZoneForTask (g : Dims) (m : DynamicMap)
    (agentId : String) (currentGoalZone : Option Coordinate)
    (currentCoordinate : Coordinate) (blockRelCoords : List Coordinate) :
    Option Coordinate × DynamicMap :=
  let candidates := m.goalZones.filter (fun c =>
    decide (c = currentCoordinate) ||
      (decide (m.getMapValueEnum c true false ∉ [MapValueEnum.DISPENSER, MapValueEnum.AGENT,
          MapValueEnum.BLOCK, MapValueEnum.MARKER]) &&
        (match currentGoalZone with
         | none => true
         | some cur =>
           decide (Coordinate.distSq g currentCoordinate c <
             Coordinate.distSq g currentCoordinate cur))))
  let goalZones := stableSortBy (fun a b =>
    decide (Coordinate.distSq g currentCoordinate a ≤ Coordinate.distSq g currentCoordinate b))
    candidates
  match m.getFirstFreeGoalZoneForTask g goalZones blockRelCoords with
  | some result =>
    (some result,
      (m.freeCoordinatesFromTask agentId).reserveCoordinatesForTask g agentId result blockRelCoords)
  | none => (none, m)

/-! Map registry and identity resolution, from data/server/mapServer.py -/

/-- Percept snapshot of one agent: visible cells keyed by coordinates
relative to the agent (its own cell is the origin). -/
abbrev Percept := List (Coordinate × MapValue)

/-- Map registry (mapServer.py, MapServer).  The config field
mapUnknownCoordSearchMaxIter only feeds the exploration search and is
omitted. -/
structure MapServer where
  aliasis : List (String × Nat)
  maps : List (Nat × DynamicMap)
  nextMapId : Nat
  gridWidth : Option Int
  gridHeight : Option Int
  currentDynamicPerceptWrappers : List (String × Percept)
deriving DecidableEq

/-- Default map used for the lookup fallbacks below; the source raises
KeyError instead, and the verified runs never hit the fallback. -/
def emptyDynamicMap : DynamicMap :=
  ⟨0, 0, [], [], [], [], [], ⟨[]⟩, [], []⟩

/-- MapServer.getMap: the map owned by the agent's alias. -/
def MapServer.getMap (s : MapServer) (agentId : String) : DynamicMap :=
  (dictGet? s.maps ((dictGet? s.aliasis agentId).getD 0)).getD emptyDynamicMap

/-- MapServer.calculateMapGridSize: keep the wrap-consistent width/height
only when it improves (strictly decreases) the stored one and the raw
coordinate difference exceeds the agent's vision. -/
def MapServer.calculateMapGridSize (s : MapServer)
    (agentCoordinate1 agentCoordinate2 relCoordinate : Coordinate)
    (agentVision : Int) : MapServer :=
  let xDifference := |agentCoordinate1.x - agentCoordinate2.x|
  let yDifference := |agentCoordinate1.y - agentCoordinate2.y|
  let widthDifference := |agentCoordinate1.x - agentCoordinate2.x + relCoordinate.x|
  let heightDifferece := |agentCoordinate1.y - agentCoordinate2.y + relCoordinate.y|
  let gridWidth' :=
    match s.gridWidth with
    | none => if xDifference > agentVision then some widthDifference else none
    | some w =>
      if widthDifference < w ∧ xDifference > agentVision then some widthDifference
      else some w
  let gridHeight' :=
    match s.gridHeight with
    | none => if yDifference > agentVision then some heightDifferece else none
    | some h =>
      if heightDifferece < h ∧ yDifference > agentVision then some heightDifferece
      else some h
  { s with
    gridWidth := gridWidth'
    gridHeight := gridHeight' }

/-- MapServer.mergeMaps: merge the second agent's map into the first
agent's map, re-point every alias of the absorbed map and delete it.
Returns the translation offset. -/
def MapServer.mergeMaps (g : Dims) (s : MapServer)
    (firstAgentId secondAgentId : String) (othersCoordinateInMyMap : Coordinate) :
    MapServer × Coordinate :=
  let firstMapId := (dictGet? s.aliasis firstAgentId).getD 0
  let secondMapId := (dictGet? s.aliasis secondAgentId).getD 0
  let firstMap := (dictGet? s.maps firstMapId).getD emptyDynamicMap
  let secondMap := (dictGet? s.maps secondMapId).getD emptyDynamicMap
  let mo := DynamicMap.merge g firstMap secondMap othersCoordinateInMyMap
    (secondMap.getAgentCoordinate g secondAgentId)
  let aliasis' := s.aliasis.map (fun av =>
    if av.2 = secondMapId then (av.1, firstMapId) else av)
  let maps' := dictErase (dictInsert s.maps firstMapId mo.1) secondMapId
  ({ s with
     aliasis := aliasis'
     maps := maps' }, mo.2)

/-- Detail string of a percept's origin entry (the observing agent's own
cell, always present in a real percept: the agent sees itself). -/
def originDetails (percept : Percept) : String :=
  ((dictGet? percept Coordinate.origo).getD ⟨MapValueEnum.UNKNOWN, "", 0⟩).details

/-- Visible unidentified teammates of checkAgentIdentifications: visible
agents, other than the observer itself, of the observer's own team. -/
def unknownOtherAgents (percept : Percept) : List Coordinate :=
  (percept.filter (fun cv =>
    decide (cv.2.value = MapValueEnum.AGENT) &&
      decide (cv.1 ≠ Coordinate.origo) &&
      decide (cv.2.details = originDetails percept))).map Prod.fst

/-- Surrounding-cell contradiction check of checkAgentIdentifications:
every cell of the other percept that, shifted by the candidate offset,
is also visible in the observer's percept must carry the same content
(via MapValue.__eq__). -/
def contradictionFree (dynamicPercept otherPercept : Percept)
    (otherAgentCoord : Coordinate) : Bool :=
  otherPercept.all (fun ov =>
    let coord : Coordinate := ⟨otherAgentCoord.x + ov.1.x, otherAgentCoord.y + ov.1.y⟩
    match dictGet? dynamicPercept coord with
    | some mv => MapValue.pyEq mv ov.2
    | none => true)

/-- Candidates produced by the inner loop of checkAgentIdentifications
for one observed teammate coordinate: every other agent that sees the
observer at the negated offset with matching team, passing the
contradiction check. -/
def candidatesForCoord (percepts : List (String × Percept)) (agentId : String)
    (dynamicPercept : Percept) (otherAgentCoord : Coordinate) :
    List (String × Coordinate) :=
  (percepts.filter (fun op =>
    decide (agentId ≠ op.1) &&
      (match dictGet? op.2 otherAgentCoord.negate with
       | some mv =>
         decide (mv.value = MapValueEnum.AGENT) &&
           decide (mv.details = originDetails dynamicPercept)
       | none => false) &&
      contradictionFree dynamicPercept op.2 otherAgentCoord)).map
    (fun op => (op.1, otherAgentCoord))

/-- State threaded through the identification pass: the registry, the
offsets to report to agents of merged maps, and the boundary-reached
flag (the outputs of checkAgentIdentifications). -/
structure IdentState where
  server : MapServer
  offsets : List (String × Coordinate)
  boundary : Bool
deriving DecidableEq

/-- Body of the per-observed-teammate iteration of
checkAgentIdentifications: extend the accumulated candidate list — the
source never resets it between observed teammates of one agent — and when
it holds exactly one entry either merge the two maps (different aliases)
or, if the shared map's recorded coordinate disagrees, calculate the
grid size. -/
def identStepForCoord (g : Dims) (percepts : List (String × Percept))
    (agentId : String) (dynamicPercept : Percept)
    (st : IdentState × List (String × Coordinate)) (otherAgentCoord : Coordinate) :
    IdentState × List (String × Coordinate) :=
  let canditates := st.2 ++ candidatesForCoord percepts agentId dynamicPercept otherAgentCoord
  let ist := st.1
  match canditates with
  | [cand] =>
    let canditateId := cand.1
    let canditateRelCoord := cand.2
    let currentAgentMap := ist.server.getMap agentId
    let currentAgentCoordinate := currentAgentMap.getAgentCoordinate g agentId
    if (dictGet? ist.server.aliasis agentId).getD 0 ≠
        (dictGet? ist.server.aliasis canditateId).getD 0 then
      let agentIdsToBeUpdated := dictKeys (ist.server.getMap canditateId).agentCoordinates
      let so := MapServer.mergeMaps g ist.server agentId canditateId
        (Coordinate.getShiftedCoordinate g currentAgentCoordinate canditateRelCoord true)
      let offsets' := agentIdsToBeUpdated.foldl
        (fun o a => dictInsert o a so.2) ist.offsets
      (⟨so.1, offsets', ist.boundary⟩, canditates)
    else if currentAgentMap.getAgentCoordinate g canditateId ≠
        Coordinate.getShiftedCoordinate g currentAgentCoordinate canditateRelCoord true then
      let server' := ist.server.calculateMapGridSize
        (currentAgentMap.getAgentCoordinate g agentId)
        (currentAgentMap.getAgentCoordinate g canditateId)
        canditateRelCoord
        (maxByX (dictKeys dynamicPercept)).x
      (⟨server', ist.offsets, true⟩, canditates)
    else (ist, canditates)
  | _ => (ist, canditates)
where
  /-- Python max(keys, key = coord.x): the first coordinate of maximal x
  (a real percept is never empty — it contains the origin). -/
  maxByX : List Coordinate → Coordinate
    | [] => Coordinate.origo
    | c :: rest => rest.foldl (fun best c2 => if c2.x > best.x then c2 else best) c

/-- Identification processing of a single observing agent, also returning
the accumulated candidate list. -/
def processIdentForAgentFull (g : Dims) (percepts : List (String × Percept))
    (ist : IdentState) (agentId : String) (dynamicPercept : Percept) :
    IdentState × List (String × Coordinate) :=
  (unknownOtherAgents dynamicPercept).foldl
    (identStepForCoord g percepts agentId dynamicPercept) (ist, [])

/-- MapServer.checkAgentIdentifications: run the identification over
every agent's current percept; returns the registry, the coordinate
offsets for agents of merged maps, and the boundary flag. -/
def MapServer.checkAgentIdentifications (g : Dims) (s : MapServer) :
    MapServer × List (String × Coordinate) × Bool :=
  let percepts := s.currentDynamicPerceptWrappers
  let fin := percepts.foldl
    (fun ist ap => (processIdentForAgentFull g percepts ist ap.1 ap.2).1)
    ⟨s, [], false⟩
  (fin.server, fin.offsets, fin.boundary)

/-! Path finding, from agent/pathfinder/pathFinder.py and
agent/pathfinder/pathFinderData.py.  A* priorities have the exact form
q + sqrt r with q, r rational; SqExpr carries the pair and compares it
exactly, which agrees with the source's float comparisons up to float
rounding. -/

/-- Exact value q + sqrt r (r is always a sum of squares here, hence
nonnegative). -/
structure SqExpr where
  q : ℚ
  r : ℚ
deriving DecidableEq

/-- Exact decision of q₁ + sqrt r₁ ≤ q₂ + sqrt r₂ for nonnegative r₁, r₂,
by squaring twice. -/
def SqExpr.ble (a b : SqExpr) : Bool :=
  let d := b.q - a.q
  if 0 ≤ d then
    let s := a.r - b.r - d ^ 2
    if s ≤ 0 then true else decide (s ^ 2 ≤ 4 * d ^ 2 * b.r)
  else
    let t := b.r - a.r - d ^ 2
    if t < 0 then false else decide (4 * d ^ 2 * a.r ≤ t ^ 2)

/-- Priority queue node (dataStructure/priorityQueue.py). -/
structure PQNode where
  value : Coordinate
  priority : SqExpr
deriving DecidableEq

/-- PriorityQueue.insert: walk past every node whose priority is at most
the new node's (Python: node.priority >= queue[x].priority continues) and
insert before the first strictly greater one, or at the end. -/
def pqInsert (node : PQNode) : List PQNode → List PQNode
  | [] => [node]
  | x :: xs =>
    if SqExpr.ble x.priority node.priority then x :: pqInsert node xs
    else node :: x :: xs

/-- Primitive action relevant to path finding (agent/action).  The
remaining action classes never leave the planner. -/
inductive AgentAction where
  | skip
  | move (directions : List Direction)
  | rotate (rotateDirection : RotateDirection)
  | clear (relCoord : Coordinate)
deriving DecidableEq

/-- Pathfinding inputs (pathFinderData.py, PathFinderData). -/
structure PathFinderData where
  map : DynamicMap
  start : Coordinate
  agentSpeed : Int
  clearEnergyCost : Int
  agentEnergy : Int
  agentMaxEnergy : Int
  clearChance : ℚ
  clearConstantCost : ℚ
  maxIteration : Nat
  agentVision : Int
  attachedCoordinates : List Coordinate

/-- PathFinder.blockClearValue, set to 100 in the constructor: clear a
foreign block only when strictly necessary. -/
def blockClearValue : ℚ := 100

/-- PathFinder.calculateTravelConstantCosts: travel time 1/speed, energy-
scaled clear cost, and the expected number of clear attempts
ceil(1/clearChance). -/
def calculateTravelConstantCosts (agentSpeed clearEnergyCost agentEnergy agentMaxEnergy : Int)
    (clearChance clearConstantConst : ℚ) : ℚ × ℚ × Int :=
  let agentTravelTime : ℚ := 1 / (agentSpeed : ℚ)
  let clearCost : ℚ :=
    clearConstantConst / (max ((agentEnergy - clearEnergyCost : Int) : ℚ) (1 / 10) / (agentMaxEnergy : ℚ))
  let clearSuccessTime : Int := ⌈1 / clearChance⌉
  (agentTravelTime, clearCost, clearSuccessTime)

/-- PathFinder.clearCost: retry count plus the energy-scaled constant. -/
def clearCostTotal (clearSuccessTime : Int) (clearEnergyCost : ℚ) : ℚ :=
  (clearSuccessTime : ℚ) + clearEnergyCost

/-- PathFinder.distanceCostWithoutRotating: a cleared obstacle costs a
full unit step plus the clear surcharge, a foreign block costs
blockClearValue plus the surcharge, everything else costs the travel
time. -/
def distanceCostWithoutRotating (endValue : MapValueEnum) (agentTravelTime : ℚ)
    (clearSuccessTime : Int) (clearCost : ℚ) : ℚ :=
  if endValue = MapValueEnum.OBSTACLE then 1 + clearCostTotal clearSuccessTime clearCost
  else if endValue = MapValueEnum.BLOCK then
    blockClearValue + clearCostTotal clearSuccessTime clearCost
  else agentTravelTime

/-- PathFinder.distanceCostWithRotating: quarter-turn base cost 3 plus
clear surcharges for the destination cell and the cell behind the agent
that the carried block swings through. -/
def distanceCostWithRotating (g : Dims) (m : DynamicMap)
    (currentCoordinate nextCoordinate : Coordinate) (clearSuccessTime : Int)
    (clearCost : ℚ) (attachedCoord : Coordinate) : ℚ :=
  let nextCoordValue := m.getMapValueEnum nextCoordinate false false
  let cost : ℚ := 3
  let cost :=
    if nextCoordValue = MapValueEnum.OBSTACLE then
      cost + clearCostTotal clearSuccessTime clearCost
    else if nextCoordValue = MapValueEnum.BLOCK then
      cost + blockClearValue + clearCostTotal clearSuccessTime clearCost
    else cost
  let adjacentCoordValue := m.getMapValueEnum
    (Coordinate.getMovedCoord g currentCoordinate
      [Coordinate.getDirection g nextCoordinate currentCoordinate] true) false false
  if adjacentCoordValue = MapValueEnum.OBSTACLE then
    cost + clearCostTotal clearSuccessTime clearCost
  else if adjacentCoordValue = MapValueEnum.BLOCK ∧
      Coordinate.getRelativeCoordinate g currentCoordinate nextCoordinate ≠ attachedCoord then
    cost + blockClearValue + clearCostTotal clearSuccessTime clearCost
  else cost

/-- Sum of the clear surcharges of the cells an arc swings through
(the two per-arc loops of distanceCostWithOppositeRotating). -/
def arcClearCost (m : DynamicMap) (clearSuccessTime : Int) (clearCost : ℚ)
    (coords : List Coordinate) : ℚ :=
  coords.foldl (fun acc c =>
    let coordValue := m.getMapValueEnum c false false
    if coordValue = MapValueEnum.OBSTACLE then
      acc + clearCostTotal clearSuccessTime clearCost
    else if coordValue = MapValueEnum.BLOCK then
      acc + blockClearValue + clearCostTotal clearSuccessTime clearCost
    else acc) 0

/-- PathFinder.distanceCostWithOppositeRotating: half-turn base cost 6;
of the two lateral arcs, only rotatable ones are allowed and the cheaper
one is chosen. -/
def distanceCostWithOppositeRotating (g : Dims) (m : DynamicMap)
    (currentCoordinate nextCoordinate : Coordinate) (clearSuccessTime : Int)
    (clearCost : ℚ) (rotateDict : List (Direction × Bool)) : ℚ × Direction :=
  let cost : ℚ := 6
  let faceDirection := Coordinate.getDirection g nextCoordinate currentCoordinate
  let frontCoord := Coordinate.getMovedCoord g currentCoordinate [faceDirection] true
  let dirs := faceDirection.getAdjacentDirections
  let leftDirection := dirs.1
  let rightDirection := dirs.2
  let leftCheckableCoords :=
    [Coordinate.getMovedCoord g currentCoordinate [leftDirection] true, frontCoord]
  let rightCheckableCoords :=
    [Coordinate.getMovedCoord g currentCoordinate [rightDirection] true, frontCoord]
  let leftRotateCost := cost + arcClearCost m clearSuccessTime clearCost leftCheckableCoords
  let rightRotateCost := cost + arcClearCost m clearSuccessTime clearCost rightCheckableCoords
  if ¬ (dictGet? rotateDict leftDirection).getD false then (rightRotateCost, rightDirection)
  else if ¬ (dictGet? rotateDict rightDirection).getD false then
    (leftRotateCost, leftDirection)
  else if leftRotateCost ≤ rightRotateCost then (leftRotateCost, leftDirection)
  else (rightRotateCost, rightDirection)

/-- PathFinder.distanceCost: distance cost of one edge and, when the step
needs a rotation, the direction to rotate through. -/
def distanceCost (g : Dims) (m : DynamicMap)
    (currentCoordinate nextCoordinate : Coordinate) (agentTravelTime : ℚ)
    (clearSuccessTime : Int) (clearCost : ℚ) (attachedCoordList : List Coordinate)
    (rotateDict : Option (List (Direction × Bool))) : ℚ × Option Direction :=
  match attachedCoordList, rotateDict with
  | [attachedCoord], some rd =>
    let moveDirection := Coordinate.getDirection g currentCoordinate nextCoordinate
    let faceDirection := Coordinate.getDirection g attachedCoord Coordinate.origo
    if moveDirection.isSameDirection faceDirection then
      (distanceCostWithoutRotating (m.getMapValueEnum nextCoordinate false false)
        agentTravelTime clearSuccessTime clearCost, none)
    else if moveDirection.isOppositeDirection faceDirection then
      let p := distanceCostWithOppositeRotating g m currentCoordinate nextCoordinate
        clearSuccessTime clearCost rd
      (p.1, some p.2)
    else
      (distanceCostWithRotating g m currentCoordinate nextCoordinate clearSuccessTime
        clearCost attachedCoord, (dictKeys rd).head?)
  | _, _ =>
    (distanceCostWithoutRotating (m.getMapValueEnum nextCoordinate false false)
      agentTravelTime clearSuccessTime clearCost, none)

/-- Passability of a single cell for the agent itself, the first test of
PathFinder.isCoordinatePassable: markers and agents far from the start
are treated as passable. -/
def passableForAgent (g : Dims) (m : DynamicMap)
    (startCoordinate nextCoordinate : Coordinate) (vision : Int)
    (ignoreMarker : Bool) : Bool :=
  let coordValue := m.getMapValueEnum nextCoordinate true false
  coordValue ∈ [MapValueEnum.EMPTY, MapValueEnum.OBSTACLE, MapValueEnum.UNKNOWN,
      MapValueEnum.BLOCK] ∨
    (coordValue = MapValueEnum.MARKER ∧
      (ignoreMarker ∨ Coordinate.manhattanDistance g startCoordinate nextCoordinate > vision)) ∨
    (coordValue = MapValueEnum.AGENT ∧
      Coordinate.manhattanDistance g startCoordinate nextCoordinate > vision)

/-- Passability condition used for the swing-through cells of a rotation
(isCoordinatePassableForSingleAttachment); note the source passes
ignoreMarker as the needMarker flag of getMapValueEnum. -/
def rotationCellFree (g : Dims) (m : DynamicMap) (startCoordinate c : Coordinate)
    (ignoreMarker : Bool) (vision : Int) : Bool :=
  let v := m.getMapValueEnum c ignoreMarker false
  v ∈ [MapValueEnum.EMPTY, MapValueEnum.UNKNOWN, MapValueEnum.BLOCK,
      MapValueEnum.OBSTACLE] ∨
    (v ∈ [MapValueEnum.AGENT, MapValueEnum.MARKER] ∧
      Coordinate.manhattanDistance g startCoordinate c > vision)

/-- PathFinder.isCoordinatePassableForSingleAttachment: whether the step
is feasible for the carried object and, when a rotation is involved, in
which senses the object may swing. -/
def isCoordinatePassableForSingleAttachment (g : Dims) (m : DynamicMap)
    (startCoordinate currentCoordinate nextCoordinate : Coordinate)
    (ignoreMarker : Bool) (attachedCoord : Coordinate) (vision : Int) :
    Bool × Option (List (Direction × Bool)) :=
  let moveDirection := Coordinate.getDirection g currentCoordinate nextCoordinate
  let faceDirection := Coordinate.getDirection g attachedCoord Coordinate.origo
  if moveDirection.isSameDirection faceDirection then (true, none)
  else if moveDirection.isOppositeDirection faceDirection then
    let frontCoord := Coordinate.getMovedCoord g currentCoordinate [faceDirection] true
    let dirs := moveDirection.getAdjacentDirections
    let leftDirection := dirs.1
    let rightDirection := dirs.2
    let leftCheckableCoords :=
      [Coordinate.getMovedCoord g currentCoordinate [leftDirection] true, frontCoord]
    let rightCheckableCoords :=
      [Coordinate.getMovedCoord g currentCoordinate [rightDirection] true, frontCoord]
    let canRotateToLeftDirection := leftCheckableCoords.all
      (fun c => rotationCellFree g m startCoordinate c ignoreMarker vision)
    let canRotateToRightDirection := rightCheckableCoords.all
      (fun c => rotationCellFree g m startCoordinate c ignoreMarker vision)
    (canRotateToLeftDirection || canRotateToRightDirection,
      some [(leftDirection, canRotateToLeftDirection),
        (rightDirection, canRotateToRightDirection)])
  else
    let rotateToCoordinate := Coordinate.getMovedCoord g currentCoordinate
      [Coordinate.getDirection g nextCoordinate currentCoordinate] true
    let canRotate := rotationCellFree g m startCoordinate rotateToCoordinate ignoreMarker vision
    (canRotate, some [(moveDirection, canRotate)])

/-- PathFinder.isCoordinatePassableForMultipleAttachements (legacy source
branch, kept for fidelity; the planner is only used with at most one
attachment). -/
def isCoordinatePassableForMultipleAttachements (g : Dims) (m : DynamicMap)
    (currentCoordinate nextCoordinate : Coordinate) (ignoreMarker : Bool)
    (attachedCoords : List Coordinate) : Bool :=
  let passableCoordsForAttacheds :=
    attachedCoords.map (fun c => Coordinate.getShiftedCoordinate g currentCoordinate c true) ++
      [currentCoordinate]
  attachedCoords.all (fun coord =>
    Coordinate.getShiftedCoordinate g nextCoordinate coord true ∈ passableCoordsForAttacheds ∨
      m.getMapValueEnum (Coordinate.getShiftedCoordinate g nextCoordinate coord true)
          ignoreMarker false ∈ [MapValueEnum.EMPTY, MapValueEnum.UNKNOWN])

/-- PathFinder.isCoordinatePassable: passability of a step together with
the carried object's relative coordinates after the step and the rotation
dictionary. -/
def isCoordinatePassable (g : Dims) (m : DynamicMap)
    (startCoordinate currentCoordinate nextCoordinate : Coordinate) (vision : Int)
    (ignoreMarker : Bool) (attachedCoords : List Coordinate) :
    Bool × List Coordinate × Option (List (Direction × Bool)) :=
  if ¬ passableForAgent g m startCoordinate nextCoordinate vision ignoreMarker then
    (false, attachedCoords, none)
  else
    match attachedCoords with
    | [] => (true, attachedCoords, none)
    | [attachment0] =>
      let pr := isCoordinatePassableForSingleAttachment g m startCoordinate
        currentCoordinate nextCoordinate ignoreMarker attachment0 vision
      let attachment :=
        if pr.1 ∧ pr.2 ≠ none then
          let moveDirection := Coordinate.getDirection g currentCoordinate nextCoordinate
          let faceDirection := Coordinate.getDirection g attachment0 Coordinate.origo
          if moveDirection.isOppositeDirection faceDirection then
            (attachment0.getRotatedRelCoord RotateDirection.CLOCKWISE).getRotatedRelCoord
              RotateDirection.CLOCKWISE
          else
            attachment0.getRotatedRelCoord (attachment0.getRotateDirection moveDirection)
        else attachment0
      (pr.1, [attachment], pr.2)
    | _ =>
      (isCoordinatePassableForMultipleAttachements g m currentCoordinate nextCoordinate
        ignoreMarker attachedCoords, attachedCoords, none)

/-- Neighbor entry produced by PathFinder.getNeighbors. -/
structure NbrEntry where
  coord : Coordinate
  attacheds : List Coordinate
  rotateDict : Option (List (Direction × Bool))
deriving DecidableEq

/-- PathFinder.getNeighbors: passable adjacent coordinates with their
attachment and rotation data.  The source shuffles the result
(random.shuffle); the permutation applied is a parameter of the
embedding, so every theorem below holds for every shuffle outcome. -/
def getNeighbors (g : Dims) (m : DynamicMap)
    (startCoordinate currentCoordinate : Coordinate) (vision : Int)
    (ignoreMarker : Bool) (attachedCoords : List Coordinate)
    (shuffle : List NbrEntry → List NbrEntry) : List NbrEntry :=
  let passableNeighbors := (Coordinate.neighbors g currentCoordinate true 1 0).filterMap
    (fun nextCoordinate =>
      let pr := isCoordinatePassable g m startCoordinate currentCoordinate nextCoordinate
        vision ignoreMarker attachedCoords
      if pr.1 then some ⟨nextCoordinate, pr.2.1, pr.2.2⟩ else none)
  shuffle passableNeighbors

/-- Mutable state of the A* loop of PathFinder.AStarBody. -/
structure AStarState where
  cameFrom : List (Coordinate × Coordinate)
  gScore : List (Coordinate × ℚ)
  fScore : List (Coordinate × SqExpr)
  openSet : List PQNode
  attachedSet : List (Coordinate × List Coordinate)
  rotations : List (Coordinate × Option Direction)
deriving DecidableEq

/-- Return value of PathFinder.AStarBody; a cost of none models math.inf
and an overall result of none models an uncaught Python exception. -/
structure AStarResult where
  cost : Option ℚ
  cameFrom : List (Coordinate × Coordinate)
  endCoordinate : Option Coordinate
  rotations : List (Coordinate × Option Direction)
deriving DecidableEq

/-- Relaxation of one neighbor inside the A* loop: on a strictly better
tentative g-score record predecessor, attachments, rotation, scores, and
push the node with priority g + h (h the Euclidean heuristic, kept as
the exact pair (g, distSq)). -/
def relaxNeighbor (g : Dims) (m : DynamicMap) (stop : Coordinate)
    (agentTravelTime : ℚ) (clearSuccessTime : Int) (clearCost : ℚ)
    (current : Coordinate) (st : AStarState) (nb : NbrEntry) : AStarState :=
  let curAttached := (dictGet? st.attachedSet current).getD []
  let dc := distanceCost g m current nb.coord agentTravelTime clearSuccessTime clearCost
    curAttached nb.rotateDict
  let tentativeGScore := (dictGet? st.gScore current).getD 0 + dc.1
  let better :=
    match dictGet? st.gScore nb.coord with
    | none => true
    | some gn => decide (tentativeGScore < gn)
  if better then
    let fterm : SqExpr := ⟨tentativeGScore, (Coordinate.distSq g nb.coord stop : ℚ)⟩
    { cameFrom := dictInsert st.cameFrom nb.coord current
      gScore := dictInsert st.gScore nb.coord tentativeGScore
      fScore := dictInsert st.fScore nb.coord fterm
      openSet := pqInsert ⟨nb.coord, fterm⟩ st.openSet
      attachedSet := dictInsert st.attachedSet nb.coord nb.attacheds
      rotations := dictInsert st.rotations nb.coord dc.2 }
  else st

/-- Python min over the heuristic (the first minimum of the float square
roots, equivalently of the exact squared distances). -/
def minByDistSq (g : Dims) (stop : Coordinate) : List Coordinate → Option Coordinate
  | [] => none
  | c :: rest => some (rest.foldl (fun best c2 =>
      if Coordinate.distSq g c2 stop < Coordinate.distSq g best stop then c2 else best) c)

/-- Post-loop fallback of PathFinder.AStarBody: with a non-empty open set
return the partial result toward the discovered coordinate heuristically
closest to the goal (Python min over the fScore keys recorded in
cameFrom; min of an empty sequence raises, modelled as none), otherwise
report that no path exists. -/
def AStarFallback (g : Dims) (stop : Coordinate) (st : AStarState) :
    Option AStarResult :=
  if ¬ st.openSet.isEmpty then
    match minByDistSq g stop
        ((dictKeys st.fScore).filter (fun c => dictContains st.cameFrom c)) with
    | some closestCoord =>
      some ⟨some ((dictGet? st.gScore closestCoord).getD 0), st.cameFrom,
        some closestCoord, st.rotations⟩
    | none => none
  else some ⟨none, st.cameFrom, none, st.rotations⟩

/-- Main loop of PathFinder.AStarBody, with the remaining iteration
budget as fuel (the source runs while iterationCount <= maxIteration).
Besides the source's return value, the embedding also reports the list of
expanded (popped and relaxed) coordinates and the final loop state; both
are ghost outputs used only to state theorems. -/
def AStarLoop (g : Dims) (m : DynamicMap) (start stop : Coordinate)
    (agentTravelTime : ℚ) (clearSuccessTime : Int) (clearCost : ℚ)
    (vision : Int) (ignoreMarker : Bool)
    (shuffles : Nat → List NbrEntry → List NbrEntry) :
    Nat → AStarState → Option AStarResult × List Coordinate × AStarState
  | 0, st => (AStarFallback g stop st, [], st)
  | fuel + 1, st =>
    match st.openSet with
    | [] => (AStarFallback g stop st, [], st)
    | node :: rest =>
      let current := node.value
      if current = stop then
        (some ⟨some ((dictGet? st.gScore current).getD 0), st.cameFrom, some current,
          st.rotations⟩, [], { st with openSet := rest })
      else
        let nbs := getNeighbors g m start current vision ignoreMarker
          ((dictGet? st.attachedSet current).getD []) (shuffles fuel)
        let st' := nbs.foldl
          (relaxNeighbor g m stop agentTravelTime clearSuccessTime clearCost current)
          { st with openSet := rest }
        let out := AStarLoop g m start stop agentTravelTime clearSuccessTime clearCost
          vision ignoreMarker shuffles fuel st'
        (out.1, current :: out.2.1, out.2.2)

/-- PathFinder.AStarBody.  An immediate start = end returns the
no-path result; otherwise the loop runs with the singleton open set. -/
def AStarBody (g : Dims) (m : DynamicMap) (start stop : Coordinate)
    (agentTravelTime : ℚ) (clearCost : ℚ) (clearSuccessTime : Int)
    (maxIteration : Nat) (agentVision : Int) (ignoreMarker : Bool)
    (attachedCoordinates : List Coordinate)
    (shuffles : Nat → List NbrEntry → List NbrEntry) :
    Option AStarResult × List Coordinate × AStarState :=
  if start = stop then (some ⟨none, [], none, []⟩, [], ⟨[], [], [], [], [], []⟩)
  else
    let f0 : SqExpr := ⟨0, (Coordinate.distSq g start stop : ℚ)⟩
    let st0 : AStarState :=
      ⟨[], [(start, 0)], [(start, f0)], [⟨start, f0⟩], [(start, attachedCoordinates)], []⟩
    AStarLoop g m start stop agentTravelTime clearSuccessTime clearCost agentVision
      ignoreMarker shuffles (maxIteration + 1) st0

/-- One reconstructed step of the path in PathFinder.getAction. -/
inductive PathStep where
  | clearStep (relCoord : Coordinate)
  | moveStep (direction : Direction)
deriving DecidableEq

/-- Test used to cut the batched move prefix. -/
def PathStep.isClear : PathStep → Bool
  | .clearStep _ => true
  | .moveStep _ => false

/-- Route reconstruction loop of PathFinder.getAction: walk the cameFrom
chain back to the start, recording a clear for obstacle/foreign-block
cells and a move otherwise.  Fuel bounds the chain (a cyclic cameFrom
would loop forever in the source); none models that divergence and the
source's KeyError. -/
def buildActions (g : Dims) (m : DynamicMap) (cameFrom : List (Coordinate × Coordinate))
    (attachedCoordinates : List Coordinate) :
    Nat → Coordinate → Coordinate → Option (List PathStep)
  | fuel, current, prev =>
    if dictContains cameFrom current then
      match fuel with
      | 0 => none
      | fuel + 1 =>
        let mapValue := m.getMapValueEnum current false false
        let relCoord := Coordinate.getRelativeCoordinate g prev current
        let entry :=
          if mapValue = MapValueEnum.OBSTACLE ∨
              (mapValue = MapValueEnum.BLOCK ∧ relCoord ∉ attachedCoordinates) then
            PathStep.clearStep relCoord
          else PathStep.moveStep (Coordinate.getDirection g prev current)
        let rest? :=
          match dictGet? cameFrom prev with
          | some pp => buildActions g m cameFrom attachedCoordinates fuel prev pp
          | none => buildActions g m cameFrom attachedCoordinates fuel prev prev
        rest?.map (fun rest => rest ++ [entry])
    else some []

/-- PathFinder.getActionAtSimpleRotating. -/
def getActionAtSimpleRotating (g : Dims) (m : DynamicMap) (current : Coordinate)
    (attachedCoord : Coordinate) (directions : List Direction) : Option AgentAction :=
  match directions with
  | [] => none
  | d0 :: dRest =>
    let attachedShifted := Coordinate.getMovedCoord g
      (Coordinate.getShiftedCoordinate g current attachedCoord true) [d0] true
    if m.getMapValueEnum attachedShifted true false ∈
        [MapValueEnum.EMPTY, MapValueEnum.UNKNOWN] then
      match dRest with
      | [d1] =>
        if m.getMapValueEnum (Coordinate.getMovedCoord g attachedShifted [d1] true) true false ∈
            [MapValueEnum.EMPTY, MapValueEnum.UNKNOWN] then
          some (.move directions)
        else some (.move [d0])
      | _ => some (.move [d0])
    else
      let blockingAdjacentCoord := Coordinate.getMovedCoord g current [d0.opposite] true
      if m.getMapValueEnum blockingAdjacentCoord false false ∈
          [MapValueEnum.OBSTACLE, MapValueEnum.BLOCK] then
        some (.clear (Coordinate.getRelativeCoordinate g current blockingAdjacentCoord))
      else some (.rotate (attachedCoord.getRotateDirection d0))

/-- PathFinder.getActionAtOppositeRotating; the rotation direction comes
from the rotations dictionary recorded by the search (a missing or None
entry would raise in the source). -/
def getActionAtOppositeRotating (g : Dims) (m : DynamicMap) (current : Coordinate)
    (attachedCoord : Coordinate) (rotations : List (Coordinate × Option Direction))
    (directions : List Direction) : Option AgentAction :=
  match directions with
  | [] => none
  | d0 :: dRest =>
    let attachedShifted := Coordinate.getMovedCoord g
      (Coordinate.getShiftedCoordinate g current attachedCoord true) [d0] true
    if m.getMapValueEnum attachedShifted true false ∈
        [MapValueEnum.EMPTY, MapValueEnum.UNKNOWN] then
      match dRest with
      | [d1] =>
        if m.getMapValueEnum (Coordinate.getMovedCoord g attachedShifted [d1] true) true false ∈
            [MapValueEnum.EMPTY, MapValueEnum.UNKNOWN] then
          some (.move directions)
        else some (.move [d0])
      | _ => some (.move [d0])
    else
      match dictGet? rotations (Coordinate.getMovedCoord g current [d0] true) with
      | some (some directionToRotate) =>
        let blockingAdjacentCoord :=
          Coordinate.getMovedCoord g current [directionToRotate.opposite] true
        if m.getMapValueEnum blockingAdjacentCoord false false ∈
            [MapValueEnum.OBSTACLE, MapValueEnum.BLOCK] then
          some (.clear (Coordinate.getRelativeCoordinate g current blockingAdjacentCoord))
        else some (.rotate (attachedCoord.getRotateDirection directionToRotate))
      | _ => none

/-- PathFinder.getAction: reconstruct the path, emit the pending clear if
the first step needs one, otherwise batch the leading straight moves (up
to the agent's speed) and resolve the rotation cases. -/
def getAction (g : Dims) (m : DynamicMap) (cameFrom : List (Coordinate × Coordinate))
    (current : Coordinate) (maxSteps : Int) (attachedCoordinates : List Coordinate)
    (rotations : List (Coordinate × Option Direction)) : Option AgentAction :=
  match dictGet? cameFrom current with
  | none => none
  | some prev =>
    match buildActions g m cameFrom attachedCoordinates
        ((dictKeys cameFrom).length + 1) current prev with
    | none => none
    | some [] => none
    | some (PathStep.clearStep rc :: _) => some (.clear rc)
    | some (first :: restActions) =>
      let actions := first :: restActions
      let directions := ((actions.take maxSteps.toNat).takeWhile
        (fun a => ¬ a.isClear)).filterMap
        (fun a => match a with | .moveStep d => some d | .clearStep _ => none)
      match attachedCoordinates with
      | [attachedCoord] =>
        let faceDirection := Coordinate.getDirection g attachedCoord Coordinate.origo
        match directions with
        | [] => none
        | d0 :: dRest =>
          if faceDirection.isSameDirection d0 then
            match dRest with
            | [] => some (.move directions)
            | d1 :: _ =>
              if faceDirection.isSameDirection d1 then some (.move directions)
              else some (.move [d0])
          else if faceDirection.isOppositeDirection d0 then
            getActionAtOppositeRotating g m current attachedCoord rotations directions
          else
            getActionAtSimpleRotating g m current attachedCoord directions
      | _ => some (.move directions)

/-- PathFinder.findNextAction: run the A* search and convert its result
into the first action, degrading to skip when no end coordinate was
produced.  (The source computes the travel constants twice, identically;
the single call here is that computation.) -/
def findNextAction (g : Dims) (pfd : PathFinderData) (stop : Coordinate)
    (ignoreMarker : Bool) (shuffles : Nat → List NbrEntry → List NbrEntry) :
    Option AgentAction :=
  let t := calculateTravelConstantCosts pfd.agentSpeed pfd.clearEnergyCost
    pfd.agentEnergy pfd.agentMaxEnergy pfd.clearChance pfd.clearConstantCost
  let out := AStarBody g pfd.map pfd.start stop t.1 t.2.1 t.2.2 pfd.maxIteration
    pfd.agentVision ignoreMarker pfd.attachedCoordinates shuffles
  match out.1 with
  | none => none
  | some res =>
    match res.endCoordinate with
    | some endCoordinate =>
      getAction g pfd.map res.cameFrom endCoordinate pfd.agentSpeed
        pfd.attachedCoordinates res.rotations
    | none => some .skip

/-! Utility lemmas about the dict model.

The rational operations of Batteries are made locally semireducible so
that concrete runs of the embedded functions can be settled by kernel
evaluation (decide); this changes no semantics, only unfolding. -/

attribute [local semireducible] Rat.add Rat.mul Rat.sub Rat.inv

theorem dictGet?_insert_self {K V : Type} [DecidableEq K] (d : List (K × V)) (k : K) (v : V) :
    dictGet? (dictInsert d k v) k = some v := by
  induction d with
  | nil => simp [dictInsert, dictGet?]
  | cons kv rest ih =>
    obtain ⟨k', v'⟩ := kv
    by_cases h : k' = k
    · simp [dictInsert, h, dictGet?]
    · simp [dictInsert, h, dictGet?, ih]

theorem dictGet?_insert_ne {K V : Type} [DecidableEq K] (d : List (K × V)) (k k2 : K) (v : V)
    (h : k ≠ k2) : dictGet? (dictInsert d k v) k2 = dictGet? d k2 := by
  induction d with
  | nil => simp [dictInsert, dictGet?, h]
  | cons kv rest ih =>
    obtain ⟨k', v'⟩ := kv
    by_cases hk : k' = k
    · subst hk
      simp [dictInsert, dictGet?, h]
    · simp [dictInsert, hk, dictGet?, ih]

theorem dictGet?_filter {K V : Type} [DecidableEq K] (p : K × V → Bool)
    (d : List (K × V)) (k : K) (v : V)
    (h : dictGet? (d.filter p) k = some v) : p (k, v) = true := by
  induction d with
  | nil => simp [dictGet?] at h
  | cons kv rest ih =>
    obtain ⟨k', v'⟩ := kv
    by_cases hp : p (k', v')
    · rw [List.filter_cons_of_pos hp] at h
      by_cases hk : k' = k
      · subst hk
        simp [dictGet?] at h
        subst h
        exact hp
      · rw [dictGet?, if_neg hk] at h
        exact ih h
    · rw [List.filter_cons_of_neg (by simpa using hp)] at h
      exact ih h

/-! Claim C10 — totality of the map query -/

/-- Claim C10: DynamicMap.getMapValue is total: a coordinate recorded
neither in the cell store, nor in the marker index, nor in the dispenser
index yields the UNKNOWN value with empty details and step 0 (for any
flag combination), rather than failing. -/
theorem C10_getMapValue_total (m : DynamicMap) (key : Coordinate)
    (needMarker needDispenser : Bool)
    (hstore : dictGet? m.store key = none)
    (hmark : dictGet? m.markers key = none)
    (_hdisp : key ∉ m.dispenserMap.getAllDispenserCoords) :
    m.getMapValue key needMarker needDispenser =
      ⟨MapValueEnum.UNKNOWN, "", 0⟩ := by
  unfold DynamicMap.getMapValue
  cases needMarker <;> simp [hmark, hstore]

/-- Witness for C10 at a concrete empty map. -/
theorem C10_getMapValue_total_witness :
    emptyDynamicMap.getMapValue ⟨3, 4⟩ true false = ⟨MapValueEnum.UNKNOWN, "", 0⟩ :=
  C10_getMapValue_total emptyDynamicMap ⟨3, 4⟩ true false rfl rfl (by decide)

/-! Claim C5 — straight-move edge cost -/

/-- Straight-move obstacle cost as the claim words it: 1/speed plus the
clear surcharge ceil(1/clearSuccessChance) + clearConstantCost /
(remainingEnergy/maxEnergy).  Modelled from the claim for comparison
with the source's cost. -/
def claimStraightObstacleCost (agentSpeed : Int) (clearChance clearConstantCost : ℚ)
    (remainingEnergy maxEnergy : Int) : ℚ :=
  1 / (agentSpeed : ℚ) +
    ((⌈1 / clearChance⌉ : ℚ) + clearConstantCost / ((remainingEnergy : ℚ) / (maxEnergy : ℚ)))

/-- Counterexample to claim C5: at agent speed 2 (clear chance 1, zero
constant cost, full energy) the code charges a full unit step for a
cleared obstacle, not 1/speed: the cost is 2, the claim's formula gives
3/2. -/
theorem C5_counterexample :
    distanceCostWithoutRotating MapValueEnum.OBSTACLE
        (calculateTravelConstantCosts 2 0 100 100 1 0).1
        (calculateTravelConstantCosts 2 0 100 100 1 0).2.2
        (calculateTravelConstantCosts 2 0 100 100 1 0).2.1 ≠
      claimStraightObstacleCost 2 1 0 100 100 := by
  simp only [distanceCostWithoutRotating, calculateTravelConstantCosts, clearCostTotal,
    claimStraightObstacleCost]
  norm_num

/-- Claim C5 as amended: with the travel constants of
calculateTravelConstantCosts, a straight move to a free cell (anything
but an obstacle or block) costs 1/speed; to an obstacle it costs 1 (a
full unit step, not 1/speed) plus the clear surcharge
ceil(1/clearChance) + clearConstantCost / (max(energy − clearEnergyCost,
1/10) / maxEnergy); to a foreign block it costs the block surcharge 100
plus the same clear surcharge. -/
theorem C5_straight_cost_amended (agentSpeed clearEnergyCost agentEnergy agentMaxEnergy : Int)
    (clearChance clearConstantCost : ℚ) :
    (∀ v : MapValueEnum, v ≠ MapValueEnum.OBSTACLE → v ≠ MapValueEnum.BLOCK →
      distanceCostWithoutRotating v
          (calculateTravelConstantCosts agentSpeed clearEnergyCost agentEnergy
            agentMaxEnergy clearChance clearConstantCost).1
          (calculateTravelConstantCosts agentSpeed clearEnergyCost agentEnergy
            agentMaxEnergy clearChance clearConstantCost).2.2
          (calculateTravelConstantCosts agentSpeed clearEnergyCost agentEnergy
            agentMaxEnergy clearChance clearConstantCost).2.1 =
        1 / (agentSpeed : ℚ)) ∧
    distanceCostWithoutRotating MapValueEnum.OBSTACLE
        (calculateTravelConstantCosts agentSpeed clearEnergyCost agentEnergy
          agentMaxEnergy clearChance clearConstantCost).1
        (calculateTravelConstantCosts agentSpeed clearEnergyCost agentEnergy
          agentMaxEnergy clearChance clearConstantCost).2.2
        (calculateTravelConstantCosts agentSpeed clearEnergyCost agentEnergy
          agentMaxEnergy clearChance clearConstantCost).2.1 =
      1 + ((⌈1 / clearChance⌉ : ℚ) +
        clearConstantCost /
          (max ((agentEnergy - clearEnergyCost : Int) : ℚ) (1 / 10) / (agentMaxEnergy : ℚ))) ∧
    distanceCostWithoutRotating MapValueEnum.BLOCK
        (calculateTravelConstantCosts agentSpeed clearEnergyCost agentEnergy
          agentMaxEnergy clearChance clearConstantCost).1
        (calculateTravelConstantCosts agentSpeed clearEnergyCost agentEnergy
          agentMaxEnergy clearChance clearConstantCost).2.2
        (calculateTravelConstantCosts agentSpeed clearEnergyCost agentEnergy
          agentMaxEnergy clearChance clearConstantCost).2.1 =
      blockClearValue + ((⌈1 / clearChance⌉ : ℚ) +
        clearConstantCost /
          (max ((agentEnergy - clearEnergyCost : Int) : ℚ) (1 / 10) / (agentMaxEnergy : ℚ))) := by
  refine ⟨fun v hv1 hv2 => ?_, ?_, ?_⟩
  · simp [distanceCostWithoutRotating, calculateTravelConstantCosts, hv1, hv2]
  · simp [distanceCostWithoutRotating, calculateTravelConstantCosts, clearCostTotal]
  · simp [distanceCostWithoutRotating, calculateTravelConstantCosts, clearCostTotal]

/-- Witness for C5's amended theorem at concrete parameters. -/
theorem C5_straight_cost_amended_witness :
    distanceCostWithoutRotating MapValueEnum.EMPTY
        (calculateTravelConstantCosts 2 0 100 100 1 0).1
        (calculateTravelConstantCosts 2 0 100 100 1 0).2.2
        (calculateTravelConstantCosts 2 0 100 100 1 0).2.1 = 1 / (2 : ℚ) :=
  (C5_straight_cost_amended 2 0 100 100 1 0).1 MapValueEnum.EMPTY
    (by decide) (by decide)

/-! Claim C8 — marker expiry in addRange -/

/-- Claim C8: after DynamicMap.addRange returns, every marker still in
the marker index was confirmed strictly fewer than markerPurgeInterval
steps before the update's step (markers whose age reached the interval
were removed). -/
theorem C8_marker_purge (m : DynamicMap) (simulationStep : Int) (u : MapUpdateData)
    (c : Coordinate) (v : MapValue)
    (h : dictGet? (m.addRange simulationStep u).markers c = some v) :
    simulationStep - v.simulationStep < m.markerPurgeInterval := by
  unfold DynamicMap.addRange at h
  simp only [] at h
  have hp := dictGet?_filter _ _ _ _ h
  simp only [decide_eq_true_eq, ge_iff_le, not_le] at hp
  omega

/-- Witness for C8: a marker confirmed at step 10 survives an update at
step 12 under purge interval 5, and its age is below the interval. -/
theorem C8_marker_purge_witness :
    (12 : Int) - 10 < ({ emptyDynamicMap with
        markerPurgeInterval := 5
        markers := [(⟨0, 0⟩, ⟨MapValueEnum.MARKER, "ev", 10⟩)] } : DynamicMap).markerPurgeInterval :=
  C8_marker_purge _ 12 ⟨[], [], [], [], []⟩ ⟨0, 0⟩ ⟨MapValueEnum.MARKER, "ev", 10⟩
    (by decide)

/-! Claim C3 — dimension monotonicity and canonical normalization -/

/-- One discovery event fed to MapServer.calculateMapGridSize. -/
structure GridObservation where
  a1 : Coordinate
  a2 : Coordinate
  rel : Coordinate
  vision : Int

/-- Application of one discovery event to the registry. -/
def applyGridObservation (s : MapServer) (o : GridObservation) : MapServer :=
  s.calculateMapGridSize o.a1 o.a2 o.rel o.vision

/-- Claim C3: across any sequence of calculateMapGridSize calls a stored
grid width (resp. height) is only ever replaced by a strictly smaller
value — it never increases and never becomes unset; and once both
dimensions are set (to positive values) Coordinate.normalize reduces
every coordinate to the canonical representative: the result lies in
[0,width) × [0,height) and any two congruent coordinates normalize to
the same representative. -/
theorem C3_dimension_monotonicity :
    (∀ (s : MapServer) (o : GridObservation) (w : Int), s.gridWidth = some w →
      (applyGridObservation s o).gridWidth = some w ∨
        ∃ w', (applyGridObservation s o).gridWidth = some w' ∧ w' < w) ∧
    (∀ (s : MapServer) (o : GridObservation) (h : Int), s.gridHeight = some h →
      (applyGridObservation s o).gridHeight = some h ∨
        ∃ h', (applyGridObservation s o).gridHeight = some h' ∧ h' < h) ∧
    (∀ (s : MapServer) (os : List GridObservation) (w : Int), s.gridWidth = some w →
      ∃ w', (os.foldl applyGridObservation s).gridWidth = some w' ∧ w' ≤ w) ∧
    (∀ (s : MapServer) (os : List GridObservation) (h : Int), s.gridHeight = some h →
      ∃ h', (os.foldl applyGridObservation s).gridHeight = some h' ∧ h' ≤ h) ∧
    (∀ (g : Dims) (w h : Int) (c : Coordinate), g.maxWidth = some w →
      g.maxHeight = some h → 0 < w → 0 < h →
      (0 ≤ (c.normalize g).x ∧ (c.normalize g).x < w ∧
        0 ≤ (c.normalize g).y ∧ (c.normalize g).y < h) ∧
      (∀ c' : Coordinate, c'.x ≡ c.x [ZMOD w] → c'.y ≡ c.y [ZMOD h] →
        c'.normalize g = c.normalize g)) := by
  have stepW : ∀ (s : MapServer) (o : GridObservation) (w : Int), s.gridWidth = some w →
      (applyGridObservation s o).gridWidth = some w ∨
        ∃ w', (applyGridObservation s o).gridWidth = some w' ∧ w' < w := by
    intro s o w hw
    simp only [applyGridObservation, MapServer.calculateMapGridSize, hw]
    split
    · next hcond => exact Or.inr ⟨_, rfl, hcond.1⟩
    · exact Or.inl rfl
  have stepH : ∀ (s : MapServer) (o : GridObservation) (h : Int), s.gridHeight = some h →
      (applyGridObservation s o).gridHeight = some h ∨
        ∃ h', (applyGridObservation s o).gridHeight = some h' ∧ h' < h := by
    intro s o h hh
    simp only [applyGridObservation, MapServer.calculateMapGridSize, hh]
    split
    · next hcond => exact Or.inr ⟨_, rfl, hcond.1⟩
    · exact Or.inl rfl
  refine ⟨stepW, stepH, ?_, ?_, ?_⟩
  · intro s os
    induction os generalizing s with
    | nil => exact fun w hw => ⟨w, hw, le_refl w⟩
    | cons o rest ih =>
      intro w hw
      rcases stepW s o w hw with hsame | ⟨w', hset, hlt⟩
      · exact ih (applyGridObservation s o) w hsame
      · obtain ⟨w'', hw'', hle⟩ := ih (applyGridObservation s o) w' hset
        exact ⟨w'', hw'', le_trans hle (le_of_lt hlt)⟩
  · intro s os
    induction os generalizing s with
    | nil => exact fun h hh => ⟨h, hh, le_refl h⟩
    | cons o rest ih =>
      intro h hh
      rcases stepH s o h hh with hsame | ⟨h', hset, hlt⟩
      · exact ih (applyGridObservation s o) h hsame
      · obtain ⟨h'', hh'', hle⟩ := ih (applyGridObservation s o) h' hset
        exact ⟨h'', hh'', le_trans hle (le_of_lt hlt)⟩
  · intro g w h c hgw hgh hw hh
    have hnorm : c.normalize g = ⟨c.x % w, c.y % h⟩ := by
      simp [Coordinate.normalize, axisNorm, hgw, hgh,
        Int.fmod_eq_emod _ (le_of_lt hw), Int.fmod_eq_emod _ (le_of_lt hh)]
    constructor
    · rw [hnorm]
      exact ⟨Int.emod_nonneg _ (ne_of_gt hw), Int.emod_lt_of_pos _ hw,
        Int.emod_nonneg _ (ne_of_gt hh), Int.emod_lt_of_pos _ hh⟩
    · intro c' hx hy
      have hnorm' : c'.normalize g = ⟨c'.x % w, c'.y % h⟩ := by
        simp [Coordinate.normalize, axisNorm, hgw, hgh,
          Int.fmod_eq_emod _ (le_of_lt hw), Int.fmod_eq_emod _ (le_of_lt hh)]
      rw [hnorm, hnorm']
      exact congrArg₂ Coordinate.mk hx hy

/-- Witness for C3 at concrete data: a stored width 10 shrinks to 8 on a
closer wrap observation, and a sample coordinate normalizes into the
canonical box under dimensions 10 × 10. -/
theorem C3_dimension_monotonicity_witness :
    (∃ w', (([⟨⟨0, 0⟩, ⟨7, 0⟩, ⟨-1, 0⟩, 3⟩] : List GridObservation).foldl
        applyGridObservation
        ⟨[], [], 0, some 10, some 10, []⟩).gridWidth = some w' ∧ w' ≤ 10) ∧
    (0 ≤ (Coordinate.normalize ⟨some 10, some 10⟩ ⟨13, -4⟩).x ∧
      (Coordinate.normalize ⟨some 10, some 10⟩ ⟨13, -4⟩).x < 10 ∧
      0 ≤ (Coordinate.normalize ⟨some 10, some 10⟩ ⟨13, -4⟩).y ∧
      (Coordinate.normalize ⟨some 10, some 10⟩ ⟨13, -4⟩).y < 10) :=
  ⟨C3_dimension_monotonicity.2.2.1 ⟨[], [], 0, some 10, some 10, []⟩
      [⟨⟨0, 0⟩, ⟨7, 0⟩, ⟨-1, 0⟩, 3⟩] 10 rfl,
    (C3_dimension_monotonicity.2.2.2.2 ⟨some 10, some 10⟩ 10 10 ⟨13, -4⟩
      rfl rfl (by decide) (by decide)).1⟩

/-! Arithmetic facts about Python's floor-mod (Int.fmod), used for the
coordinate claims.  Python's % is floor-mod for every sign combination,
which is exactly Int.fmod. -/

theorem fmod_sub_dvd (a b : Int) : b ∣ (a - a.fmod b) := by
  refine ⟨a.fdiv b, ?_⟩
  have h := Int.fmod_add_fdiv a b
  linarith

theorem fmod_neg_bounds (a b : Int) (hb : b < 0) : b < a.fmod b ∧ a.fmod b ≤ 0 := by
  obtain ⟨n, rfl⟩ : ∃ n : Nat, b = Int.negSucc n := by
    rcases b with m | n
    · exact absurd hb (by simp only [Int.ofNat_eq_natCast, not_lt]; omega)
    · exact ⟨n, rfl⟩
  rcases a with m | m
  · cases m with
    | zero =>
      show Int.negSucc n < Int.fmod 0 (Int.negSucc n) ∧ Int.fmod 0 (Int.negSucc n) ≤ 0
      rw [Int.zero_fmod, Int.negSucc_eq]
      omega
    | succ k =>
      have heq : Int.fmod (Int.ofNat (k + 1)) (Int.negSucc n) =
          Int.subNatNat (k % (n + 1)) n := rfl
      rw [heq, Int.subNatNat_eq_coe, Int.negSucc_eq]
      have hk : k % (n + 1) < n + 1 := Nat.mod_lt k (Nat.succ_pos n)
      omega
  · have heq : Int.fmod (Int.negSucc m) (Int.negSucc n) =
        -(Int.ofNat ((m + 1) % (n + 1))) := rfl
    rw [heq, Int.negSucc_eq]
    have hk : (m + 1) % (n + 1) < n + 1 := Nat.mod_lt (m + 1) (Nat.succ_pos n)
    simp only [Int.ofNat_eq_natCast]
    omega

theorem fmod_pos_bounds (a w : Int) (hw : 0 < w) : 0 ≤ a.fmod w ∧ a.fmod w < w := by
  rw [Int.fmod_eq_emod _ (le_of_lt hw)]
  exact ⟨Int.emod_nonneg _ (ne_of_gt hw), Int.emod_lt_of_pos _ hw⟩

theorem int_mul_zero_or_one (w e : Int) (hw : 0 < w) (h1 : 0 ≤ w * e)
    (h2 : w * e < 2 * w) : e = 0 ∨ e = 1 := by
  rcases lt_trichotomy e 0 with he | he | he
  · exfalso
    nlinarith
  · exact Or.inl he
  · right
    by_contra hne
    have h2e : 2 ≤ e := by omega
    nlinarith

/-- Relation between the two Python residues: d % (-w) is d % w shifted
down by w, except when the positive residue is 0. -/
theorem fmod_neg_eq (d w : Int) (hw : 0 < w) :
    d.fmod (-w) = if d.fmod w = 0 then 0 else d.fmod w - w := by
  have hp := fmod_pos_bounds d w hw
  have hn := fmod_neg_bounds d (-w) (by omega)
  have hdp := fmod_sub_dvd d w
  have hdn : w ∣ (d - d.fmod (-w)) := (Int.neg_dvd).mp (fmod_sub_dvd d (-w))
  obtain ⟨e, he⟩ : w ∣ (d.fmod w - d.fmod (-w)) := by
    have h2 := Int.dvd_sub hdn hdp
    have heq2 : d - d.fmod (-w) - (d - d.fmod w) = d.fmod w - d.fmod (-w) := by ring
    rw [heq2] at h2
    exact h2
  have he01 : e = 0 ∨ e = 1 := int_mul_zero_or_one w e hw (by omega) (by omega)
  rcases he01 with h0 | h1
  · subst h0
    split
    · omega
    · omega
  · subst h1
    split
    · omega
    · omega

/-- Minimality of the relAxis residue: no other representative of the
congruence class has a smaller absolute value. -/
theorem relAxis_minabs (w d c : Int) (hw : 0 < w) (hc : w ∣ (d - c)) :
    (relAxis (some w) d).natAbs ≤ c.natAbs := by
  have hp := fmod_pos_bounds d w hw
  have hne := fmod_neg_eq d w hw
  obtain ⟨k, hk⟩ : w ∣ (c - d.fmod w) := by
    have h2 := Int.dvd_sub (fmod_sub_dvd d w) hc
    have heq : d - d.fmod w - (d - c) = c - d.fmod w := by ring
    rw [heq] at h2
    exact h2
  have hkey : d.fmod w ≤ c ∨ c ≤ d.fmod w - w := by
    rcases lt_trichotomy k 0 with hneg | h0 | hpos
    · right
      have hkk : w * k ≤ -w := by nlinarith
      linarith
    · left
      rw [h0, mul_zero] at hk
      linarith
    · left
      have hkk : w ≤ w * k := by nlinarith
      linarith
  simp only [relAxis]
  by_cases hz : d.fmod w = 0
  · rw [if_pos hz] at hne
    rw [hne, hz]
    simp
  · rw [if_neg hz] at hne
    rw [hne]
    by_cases habs : |d.fmod w| < |d.fmod w - w|
    · rw [if_pos habs]
      rw [abs_of_nonneg hp.1, abs_of_neg (by omega : d.fmod w - w < 0)] at habs
      omega
    · rw [if_neg habs]
      rw [abs_of_nonneg hp.1, abs_of_neg (by omega : d.fmod w - w < 0)] at habs
      omega

/-- The relAxis residue represents the difference: it is congruent to it
modulo the dimension. -/
theorem relAxis_congr (w d : Int) (_hw : 0 < w) : w ∣ (d - relAxis (some w) d) := by
  simp only [relAxis]
  split
  · exact fmod_sub_dvd d w
  · exact (Int.neg_dvd).mp (fmod_sub_dvd d (-w))

/-- Small relative offsets are recovered exactly by relAxis. -/
theorem relAxis_small (w r : Int) (h1 : -w ≤ 2 * r) (h2 : 2 * r < w) :
    relAxis (some w) r = r := by
  have hw : 0 < w := by omega
  have hfr : r.fmod w = if 0 ≤ r then r else r + w := by
    rw [Int.fmod_eq_emod _ (le_of_lt hw)]
    split
    · next hr => exact Int.emod_eq_of_lt hr (by omega)
    · next hr =>
      have hshift : r % w = (r + w) % w := by
        conv_rhs => rw [Int.add_emod, Int.emod_self, add_zero,
          Int.emod_emod_of_dvd _ dvd_rfl]
      rw [hshift]
      exact Int.emod_eq_of_lt (by omega) (by omega)
  have hne := fmod_neg_eq r w hw
  simp only [relAxis]
  by_cases hr : 0 ≤ r
  · rw [if_pos hr] at hfr
    by_cases hz : r = 0
    · subst hz
      simp [Int.zero_fmod]
    · rw [hfr] at hne
      rw [hfr, hne]
      simp only [if_neg hz]
      have habs : |r| < |r - w| := by
        rw [abs_of_nonneg hr, abs_of_neg (by omega : r - w < 0)]
        omega
      rw [if_pos habs]
  · rw [if_neg hr] at hfr
    rw [hfr] at hne
    rw [if_neg (by omega : ¬ (r + w = 0))] at hne
    rw [hfr, hne]
    have hcond : ¬ |r + w| < |r + w - w| := by
      rw [abs_of_nonneg (by omega : (0 : Int) ≤ r + w),
        abs_of_neg (by omega : r + w - w < 0)]
      omega
    rw [if_neg hcond]
    omega

/-- Validity of one dimension axis: unset, or a positive extent. -/
def axisValid (w : Option Int) : Prop := ∀ v ∈ w, 0 < v

/-- Validity of both dimensions. -/
def Dims.valid (g : Dims) : Prop := axisValid g.maxWidth ∧ axisValid g.maxHeight

theorem axisNorm_congr_some (x : Int) (hx : 0 < x) (u v : Int) (h : x ∣ (u - v)) :
    axisNorm (some x) u = axisNorm (some x) v := by
  simp only [axisNorm]
  rw [Int.fmod_eq_emod _ (le_of_lt hx), Int.fmod_eq_emod _ (le_of_lt hx)]
  exact Int.ModEq.symm (Int.modEq_iff_dvd.mpr (by simpa using h))

theorem axisNorm_add_cancel (w : Option Int) (hv : axisValid w) (a b : Int) :
    axisNorm w (axisNorm w a + b) = axisNorm w (a + b) := by
  cases w with
  | none => rfl
  | some x =>
    have hx : 0 < x := hv x rfl
    apply axisNorm_congr_some x hx
    have heq : axisNorm (some x) a + b - (a + b) = -(a - a.fmod x) := by
      simp only [axisNorm]
      ring
    rw [heq]
    exact Int.dvd_neg.mpr (fmod_sub_dvd a x)

/-! Claim C7 — coordinate arithmetic inverses -/

/-- Horizontal displacement of one movement step. -/
def dirDx : Direction → Int
  | .EAST => 1
  | .WEST => -1
  | _ => 0

/-- Vertical displacement of one movement step. -/
def dirDy : Direction → Int
  | .NORTH => -1
  | .SOUTH => 1
  | _ => 0

/-- The inverse of a direction sequence in the claim's sense: reverse
the order and invert every direction. -/
def reverseAndInvert (ds : List Direction) : List Direction :=
  (ds.reverse).map Direction.opposite

theorem dirDx_opposite (d : Direction) : dirDx d.opposite = -dirDx d := by
  cases d <;> decide

theorem dirDy_opposite (d : Direction) : dirDy d.opposite = -dirDy d := by
  cases d <;> decide

theorem foldl_moveOne_eq (ds : List Direction) : ∀ c : Coordinate,
    ds.foldl Coordinate.moveOne c =
      ⟨c.x + (ds.map dirDx).sum, c.y + (ds.map dirDy).sum⟩ := by
  induction ds with
  | nil =>
    intro c
    simp
  | cons d rest ih =>
    intro c
    rw [List.foldl_cons, ih]
    cases d <;>
      simp only [Coordinate.moveOne, dirDx, dirDy, List.map_cons, List.sum_cons,
        Coordinate.mk.injEq] <;>
      constructor <;> ring

theorem sum_dirDx_reverseAndInvert (ds : List Direction) :
    ((reverseAndInvert ds).map dirDx).sum = -((ds.map dirDx).sum) := by
  induction ds with
  | nil => simp [reverseAndInvert]
  | cons d rest ih =>
    simp only [reverseAndInvert, List.reverse_cons, List.map_append, List.sum_append,
      List.map_cons, List.sum_cons, List.map_nil, List.sum_nil] at ih ⊢
    rw [ih, dirDx_opposite]
    ring

theorem sum_dirDy_reverseAndInvert (ds : List Direction) :
    ((reverseAndInvert ds).map dirDy).sum = -((ds.map dirDy).sum) := by
  induction ds with
  | nil => simp [reverseAndInvert]
  | cons d rest ih =>
    simp only [reverseAndInvert, List.reverse_cons, List.map_append, List.sum_append,
      List.map_cons, List.sum_cons, List.map_nil, List.sum_nil] at ih ⊢
    rw [ih, dirDy_opposite]
    ring

/-- Congruent inputs give the same relAxis residue. -/
theorem relAxis_class (w u v : Int) (hw : 0 < w) (h : w ∣ (u - v)) :
    relAxis (some w) u = relAxis (some w) v := by
  have hu : u.fmod w = v.fmod w := by
    rw [Int.fmod_eq_emod _ (le_of_lt hw), Int.fmod_eq_emod _ (le_of_lt hw)]
    exact Int.ModEq.symm (Int.modEq_iff_dvd.mpr (by simpa using h))
  simp only [relAxis, fmod_neg_eq _ _ hw, hu]

theorem axis_shift_rel (w : Option Int) (hv : axisValid w) (ax bx : Int) :
    axisNorm w (ax + relAxis w (bx - ax)) = axisNorm w bx := by
  cases w with
  | none =>
    simp only [axisNorm, relAxis]
    ring
  | some x =>
    have hx : 0 < x := hv x rfl
    apply axisNorm_congr_some x hx
    have heq : ax + relAxis (some x) (bx - ax) - bx =
        -((bx - ax) - relAxis (some x) (bx - ax)) := by ring
    rw [heq]
    exact Int.dvd_neg.mpr (relAxis_congr x (bx - ax) hx)

/-- Counterexample to claim C7 as stated: with grid dimensions 5 × 5 the
relative coordinate of the origin to the origin shifted by r = (3, 0) is
(-2, 0), the wrap-reduced representative, not r itself. -/
theorem C7_counterexample :
    Coordinate.getRelativeCoordinate ⟨some 5, some 5⟩ Coordinate.origo
        (Coordinate.getShiftedCoordinate ⟨some 5, some 5⟩ Coordinate.origo ⟨3, 0⟩ true) ≠
      ⟨3, 0⟩ := by
  decide

/-- Claim C7 as amended.  With valid dimensions (unset or positive):
moving by a direction sequence and then by the reversed sequence of
opposite directions returns the normalized original coordinate (the
original itself modulo wrap); shifting a by getRelativeCoordinate(a, b)
yields b up to normalization; and getRelativeCoordinate(a,
getShiftedCoordinate(a, r)) recovers r itself exactly when the
dimensions are unset, or when r lies in the centred fundamental domain
(-w ≤ 2 r.x < w, -h ≤ 2 r.y < h) — in general the wrap-reduced
representative of r is recovered, as the counterexample shows. -/
theorem C7_coordinate_inverse_amended :
    (∀ (g : Dims) (c : Coordinate) (ds : List Direction), g.valid →
      Coordinate.move g (Coordinate.move g c ds true) (reverseAndInvert ds) true =
        Coordinate.normalize g c) ∧
    (∀ (g : Dims) (a b : Coordinate), g.valid →
      Coordinate.getShiftedCoordinate g a (Coordinate.getRelativeCoordinate g a b) true =
        Coordinate.normalize g b) ∧
    (∀ (a r : Coordinate),
      Coordinate.getRelativeCoordinate ⟨none, none⟩ a
        (Coordinate.getShiftedCoordinate ⟨none, none⟩ a r true) = r) ∧
    (∀ (g : Dims) (a r : Coordinate) (w h : Int), g.maxWidth = some w →
      g.maxHeight = some h → -w ≤ 2 * r.x → 2 * r.x < w → -h ≤ 2 * r.y → 2 * r.y < h →
      Coordinate.getRelativeCoordinate g a
        (Coordinate.getShiftedCoordinate g a r true) = r) := by
  refine ⟨?_, ?_, ?_, ?_⟩
  · intro g c ds hg
    simp only [Coordinate.move, Coordinate.normIf, if_pos, Coordinate.normalize]
    rw [foldl_moveOne_eq, foldl_moveOne_eq]
    simp only []
    rw [sum_dirDx_reverseAndInvert, sum_dirDy_reverseAndInvert]
    refine congrArg₂ Coordinate.mk ?_ ?_
    · rw [axisNorm_add_cancel _ hg.1]
      exact congrArg _ (by ring)
    · rw [axisNorm_add_cancel _ hg.2]
      exact congrArg _ (by ring)
  · intro g a b hg
    simp only [Coordinate.getShiftedCoordinate, Coordinate.normIf, if_pos,
      Coordinate.getRelativeCoordinate, Coordinate.normalize]
    exact congrArg₂ Coordinate.mk (axis_shift_rel _ hg.1 _ _) (axis_shift_rel _ hg.2 _ _)
  · intro a r
    obtain ⟨rx, ry⟩ := r
    simp only [Coordinate.getRelativeCoordinate, Coordinate.getShiftedCoordinate,
      Coordinate.normIf, if_pos, Coordinate.normalize, axisNorm, relAxis,
      Coordinate.mk.injEq]
    constructor <;> ring
  · intro g a r w h hgw hgh h1 h2 h3 h4
    have hw : 0 < w := by omega
    have hh : 0 < h := by omega
    obtain ⟨rx, ry⟩ := r
    simp only [Coordinate.getRelativeCoordinate, Coordinate.getShiftedCoordinate,
      Coordinate.normIf, if_pos, Coordinate.normalize, hgw, hgh, Coordinate.mk.injEq]
    constructor
    · rw [relAxis_class w _ (rx : Int) hw ?hdvd]
      · exact relAxis_small w rx h1 h2
      case hdvd =>
        have heq : axisNorm (some w) (a.x + rx) - a.x - rx =
            -((a.x + rx) - axisNorm (some w) (a.x + rx)) := by ring
        rw [heq]
        exact Int.dvd_neg.mpr (by simpa [axisNorm] using fmod_sub_dvd (a.x + rx) w)
    · rw [relAxis_class h _ (ry : Int) hh ?hdvd2]
      · exact relAxis_small h ry h3 h4
      case hdvd2 =>
        have heq : axisNorm (some h) (a.y + ry) - a.y - ry =
            -((a.y + ry) - axisNorm (some h) (a.y + ry)) := by ring
        rw [heq]
        exact Int.dvd_neg.mpr (by simpa [axisNorm] using fmod_sub_dvd (a.y + ry) h)

/-- Witness for C7's amended theorem at concrete data: a round trip on a
5 × 5 torus and an exact small-offset recovery. -/
theorem C7_coordinate_inverse_amended_witness :
    Coordinate.move ⟨some 5, some 5⟩
        (Coordinate.move ⟨some 5, some 5⟩ ⟨1, 2⟩ [Direction.EAST, Direction.EAST,
          Direction.SOUTH] true)
        (reverseAndInvert [Direction.EAST, Direction.EAST, Direction.SOUTH]) true =
      Coordinate.normalize ⟨some 5, some 5⟩ ⟨1, 2⟩ ∧
    Coordinate.getRelativeCoordinate ⟨some 5, some 5⟩ ⟨4, 4⟩
        (Coordinate.getShiftedCoordinate ⟨some 5, some 5⟩ ⟨4, 4⟩ ⟨-2, 2⟩ true) = ⟨-2, 2⟩ :=
  ⟨C7_coordinate_inverse_amended.1 ⟨some 5, some 5⟩ ⟨1, 2⟩ _
      ⟨by intro v hv; simp at hv; omega, by intro v hv; simp at hv; omega⟩,
    C7_coordinate_inverse_amended.2.2.2 ⟨some 5, some 5⟩ ⟨4, 4⟩ ⟨-2, 2⟩ 5 5 rfl rfl
      (by decide) (by decide) (by decide) (by decide)⟩

/-! Claim C9 — goal-zone reservation -/

/-- Map used by the C9 counterexample: one goal zone at the origin, and
agent A2 already holding a claim on the cell (0, -1). -/
def C9map : DynamicMap :=
  { emptyDynamicMap with
    goalZones := [⟨0, 0⟩]
    agentCoordReservations := [("A2", [⟨0, -1⟩])] }

/-- Result of A1's reservation attempt in the C9 counterexample. -/
def C9out : Option Coordinate × DynamicMap :=
  DynamicMap.tryReserveCloserGoalZoneForTask ⟨none, none⟩ C9map "A1" none ⟨5, 5⟩ [⟨0, 1⟩]

/-- Counterexample to claim C9 as stated: A1's reservation of the goal
zone (0,0) with block offset (0,1) succeeds although A2 already holds
(0,-1), a cell that A1's new claim also covers (it surrounds the goal
zone but no block cell, so the free-zone check never examines it) —
afterwards two agents hold the same cell. -/
theorem C9_counterexample :
    C9out.1 = some ⟨0, 0⟩ ∧
    ⟨0, -1⟩ ∈ (dictGet? C9out.2.agentCoordReservations "A1").getD [] ∧
    ⟨0, -1⟩ ∈ (dictGet? C9out.2.agentCoordReservations "A2").getD [] := by
  decide

/-- Claim C9 as amended: when tryReserveCloserGoalZoneForTask succeeds
for agent X, X's prior claims are released before the new cells are
recorded (the resulting claim of X is exactly the fresh cell set), and
none of the checked cells — the surrounding neighbors of the block
cells, though not of the goal zone itself — was held by any agent at the
time of the free-zone check.  Cells that only surround the goal zone are
reserved without being checked, so mutual exclusion can fail there, as
the counterexample shows. -/
theorem C9_reservation_amended (g : Dims) (m : DynamicMap) (agentId : String)
    (currentGoalZone : Option Coordinate) (currentCoordinate : Coordinate)
    (blockRelCoords : List Coordinate) (gz : Coordinate) (m' : DynamicMap)
    (h : m.tryReserveCloserGoalZoneForTask g agentId currentGoalZone currentCoordinate
      blockRelCoords = (some gz, m')) :
    dictGet? m'.agentCoordReservations agentId =
      some (taskReservedCells g gz blockRelCoords) ∧
    ∀ c ∈ taskCheckedCells g gz blockRelCoords,
      c ∉ (dictValues m.agentCoordReservations).flatten := by
  unfold DynamicMap.tryReserveCloserGoalZoneForTask at h
  simp only [] at h
  split at h
  · next result hfind =>
    simp only [Prod.mk.injEq, Option.some.injEq] at h
    obtain ⟨hgz, hm'⟩ := h
    subst hgz
    constructor
    · rw [← hm']
      simp only [DynamicMap.reserveCoordinatesForTask, DynamicMap.freeCoordinatesFromTask]
      rw [dictGet?_insert_self, dictGet?_insert_self, Option.getD_some, List.nil_append]
    · intro c hc
      unfold DynamicMap.getFirstFreeGoalZoneForTask at hfind
      have hp := List.find?_some hfind
      rw [List.all_eq_true] at hp
      have hpc := hp c hc
      simp only [decide_eq_true_eq] at hpc
      exact hpc.1
  · simp at h

/-- Witness for C9's amended theorem: a succeeding reservation on a map
with one goal zone and no other agent. -/
theorem C9_reservation_amended_witness :
    dictGet? ((DynamicMap.tryReserveCloserGoalZoneForTask ⟨none, none⟩
        { emptyDynamicMap with goalZones := [⟨0, 0⟩] } "A1" none ⟨5, 5⟩
        [⟨0, 1⟩]).2).agentCoordReservations "A1" =
      some (taskReservedCells ⟨none, none⟩ ⟨0, 0⟩ [⟨0, 1⟩]) :=
  (C9_reservation_amended ⟨none, none⟩ { emptyDynamicMap with goalZones := [⟨0, 0⟩] }
    "A1" none ⟨5, 5⟩ [⟨0, 1⟩] ⟨0, 0⟩ _ (by decide)).1

/-! Claim C1 — map merge.  Supporting lemmas about the merge folds. -/

theorem dictGet?_mem {K V : Type} [DecidableEq K] (d : List (K × V)) (k : K) (v : V)
    (h : dictGet? d k = some v) : (k, v) ∈ d := by
  induction d with
  | nil => simp [dictGet?] at h
  | cons kv rest ih =>
    obtain ⟨k', v'⟩ := kv
    by_cases hk : k' = k
    · subst hk
      rw [dictGet?, if_pos rfl] at h
      injection h with h
      subst h
      exact List.mem_cons_self _ _
    · rw [dictGet?, if_neg hk] at h
      exact List.mem_cons_of_mem _ (ih h)

theorem dictInsert_mem_cases {K V : Type} [DecidableEq K] (d : List (K × V)) (k : K)
    (v : V) (tc : K × V) (h : tc ∈ dictInsert d k v) : tc = (k, v) ∨ tc ∈ d := by
  induction d with
  | nil =>
    simp [dictInsert] at h
    exact Or.inl h
  | cons kv rest ih =>
    obtain ⟨k', v'⟩ := kv
    by_cases hk : k' = k
    · subst hk
      simp [dictInsert] at h
      rcases h with h | h
      · exact Or.inl (by simp [h])
      · exact Or.inr (List.mem_cons_of_mem _ h)
    · simp [dictInsert, hk] at h
      rcases h with h | h
      · exact Or.inr (by simp [h])
      · rcases ih h with h2 | h2
        · exact Or.inl h2
        · exact Or.inr (List.mem_cons_of_mem _ h2)

theorem mem_getAllDispenserCoords_iff (dm : DispenserMap) (x : Coordinate) :
    x ∈ dm.getAllDispenserCoords ↔ ∃ tc ∈ dm.dispensers, x ∈ tc.2 := by
  simp only [DispenserMap.getAllDispenserCoords, List.mem_flatten, dictValues,
    List.mem_map]
  constructor
  · rintro ⟨l, ⟨tc, htc, rfl⟩, hx⟩
    exact ⟨tc, htc, hx⟩
  · rintro ⟨tc, htc, hx⟩
    exact ⟨tc.2, ⟨tc, htc, rfl⟩, hx⟩

/-- Every coordinate of every bucket of addDispenser's result comes from
an existing bucket of the same type or is the added coordinate. -/
theorem addDispenser_entry_origin (dm : DispenserMap) (t : String) (c : Coordinate)
    (tc' : String × List Coordinate) (h : tc' ∈ (dm.addDispenser t c).dispensers)
    (x : Coordinate) (hx : x ∈ tc'.2) :
    (∃ tc0 ∈ dm.dispensers, tc0.1 = tc'.1 ∧ x ∈ tc0.2) ∨ (tc'.1 = t ∧ x = c) := by
  unfold DispenserMap.addDispenser at h
  rcases hget : dictGet? dm.dispensers t with _ | coords
  · rw [hget] at h
    simp only [List.mem_append, List.mem_singleton] at h
    rcases h with h | h
    · exact Or.inl ⟨tc', h, rfl, hx⟩
    · subst h
      simp at hx
      exact Or.inr ⟨rfl, hx⟩
  · rw [hget] at h
    simp only [] at h
    rcases dictInsert_mem_cases _ _ _ _ h with h2 | h2
    · subst h2
      simp only [] at hx
      by_cases hc : c ∈ coords
      · rw [if_pos hc] at hx
        exact Or.inl ⟨(t, coords), dictGet?_mem _ _ _ hget, rfl, hx⟩
      · rw [if_neg hc] at hx
        rcases List.mem_append.mp hx with h3 | h3
        · exact Or.inl ⟨(t, coords), dictGet?_mem _ _ _ hget, rfl, h3⟩
        · simp at h3
          exact Or.inr ⟨rfl, h3⟩
    · exact Or.inl ⟨tc', h2, rfl, hx⟩

theorem addDispenser_mem_cases (dm : DispenserMap) (t : String) (c x : Coordinate)
    (h : x ∈ (dm.addDispenser t c).getAllDispenserCoords) :
    x = c ∨ x ∈ dm.getAllDispenserCoords := by
  obtain ⟨tc', htc', hx⟩ := (mem_getAllDispenserCoords_iff _ _).mp h
  rcases addDispenser_entry_origin dm t c tc' htc' x hx with ⟨tc0, h0, _, hx0⟩ | ⟨_, hxc⟩
  · exact Or.inr ((mem_getAllDispenserCoords_iff _ _).mpr ⟨tc0, h0, hx0⟩)
  · exact Or.inl hxc

theorem addDispenser_mem_self (dm : DispenserMap) (t : String) (c : Coordinate) :
    c ∈ (dm.addDispenser t c).getAllDispenserCoords := by
  rw [mem_getAllDispenserCoords_iff]
  unfold DispenserMap.addDispenser
  rcases hget : dictGet? dm.dispensers t with _ | coords
  · exact ⟨(t, [c]), by simp, by simp⟩
  · by_cases hc : c ∈ coords
    · refine ⟨(t, coords), ?_, hc⟩
      simp only [if_pos hc]
      have := dictGet?_mem _ _ _ (dictGet?_insert_self dm.dispensers t coords)
      exact this
    · refine ⟨(t, coords ++ [c]), ?_, by simp⟩
      simp only [if_neg hc]
      exact dictGet?_mem _ _ _ (dictGet?_insert_self dm.dispensers t (coords ++ [c]))

/-- Replacing a bucket by a superset preserves every stored coordinate. -/
theorem dictInsert_mem_grow {K : Type} [DecidableEq K]
    (d : List (K × List Coordinate)) (t : K) (newv : List Coordinate)
    (hsub : ∀ v, dictGet? d t = some v → v ⊆ newv)
    (tc : K × List Coordinate) (htc : tc ∈ d) (x : Coordinate) (hx : x ∈ tc.2) :
    ∃ tc' ∈ dictInsert d t newv, x ∈ tc'.2 := by
  induction d with
  | nil => simp at htc
  | cons kv rest ih =>
    obtain ⟨k', v'⟩ := kv
    by_cases hk : k' = t
    · subst hk
      simp only [dictInsert, if_pos rfl]
      rcases List.mem_cons.mp htc with h2 | h2
      · refine ⟨(k', newv), List.mem_cons_self _ _, ?_⟩
        have : v' ⊆ newv := hsub v' (by rw [dictGet?, if_pos rfl])
        have hv : tc.2 = v' := by rw [h2]
        exact this (hv ▸ hx)
      · exact ⟨tc, List.mem_cons_of_mem _ h2, hx⟩
    · simp only [dictInsert, if_neg hk]
      rcases List.mem_cons.mp htc with h2 | h2
      · exact ⟨tc, by simp [h2], hx⟩
      · obtain ⟨tc2, htc2, hx2⟩ := ih
          (fun v hv => hsub v (by rwa [dictGet?, if_neg hk])) h2
        exact ⟨tc2, List.mem_cons_of_mem _ htc2, hx2⟩

theorem addDispenser_mem_mono (dm : DispenserMap) (t : String) (c x : Coordinate)
    (h : x ∈ dm.getAllDispenserCoords) :
    x ∈ (dm.addDispenser t c).getAllDispenserCoords := by
  rw [mem_getAllDispenserCoords_iff] at h ⊢
  obtain ⟨tc, htc, hx⟩ := h
  unfold DispenserMap.addDispenser
  rcases hget : dictGet? dm.dispensers t with _ | coords
  · exact ⟨tc, by simp [htc], hx⟩
  · simp only []
    apply dictInsert_mem_grow dm.dispensers t _ ?hsub tc htc x hx
    case hsub =>
      intro v hv
      rw [hget] at hv
      injection hv with hv
      subst hv
      split
      · exact fun a ha => ha
      · exact fun a ha => List.mem_append.mpr (Or.inl ha)

/-- Origin of the buckets after adding one type's coordinate list. -/
theorem addDispenserFold_entry_origin (shift : Coordinate → Coordinate) (t : String)
    (cs : List Coordinate) (dm0 : DispenserMap) (tc0 : String × List Coordinate)
    (htc0 : tc0 ∈ ((cs.foldl (fun dm c => dm.addDispenser t (shift c)) dm0)).dispensers)
    (x : Coordinate) (hx0 : x ∈ tc0.2) :
    (∃ tc1 ∈ dm0.dispensers, tc1.1 = tc0.1 ∧ x ∈ tc1.2) ∨
      (tc0.1 = t ∧ ∃ c ∈ cs, x = shift c) := by
  induction cs generalizing dm0 with
  | nil => exact Or.inl ⟨tc0, htc0, rfl, hx0⟩
  | cons c0 cs ih =>
    rw [List.foldl_cons] at htc0
    rcases ih (dm0.addDispenser t (shift c0)) htc0 with
      ⟨tc1, htc1, hty1, hx1⟩ | ⟨hty1, c1, hc1, hxc1⟩
    · rcases addDispenser_entry_origin _ _ _ _ htc1 x hx1 with
        ⟨tc2, htc2, hty2, hx2⟩ | ⟨hty2, hxc2⟩
      · exact Or.inl ⟨tc2, htc2, hty2.trans hty1, hx2⟩
      · exact Or.inr ⟨hty1 ▸ hty2, c0, List.mem_cons_self _ _, hxc2⟩
    · exact Or.inr ⟨hty1, c1, List.mem_cons_of_mem _ hc1, hxc1⟩

/-- Origin of the buckets of the merged dispenser registry. -/
theorem mergeDispensers_entry_origin (shift : Coordinate → Coordinate)
    (bdisp : List (String × List Coordinate)) (dm0 : DispenserMap)
    (tc' : String × List Coordinate)
    (h : tc' ∈ (mergeDispensers shift bdisp dm0).dispensers)
    (x : Coordinate) (hx : x ∈ tc'.2) :
    (∃ tc0 ∈ dm0.dispensers, tc0.1 = tc'.1 ∧ x ∈ tc0.2) ∨
      (∃ tcB ∈ bdisp, tc'.1 = tcB.1 ∧ ∃ c ∈ tcB.2, x = shift c) := by
  induction bdisp generalizing dm0 with
  | nil =>
    exact Or.inl ⟨tc', h, rfl, hx⟩
  | cons tb rest ih =>
    rw [mergeDispensers, List.foldl_cons] at h
    rcases ih (tb.2.foldl (fun dm c => dm.addDispenser tb.1 (shift c)) dm0) h with
      hinner | ⟨tcB, htcB, hty, c, hc, hxc⟩
    · obtain ⟨tc0, htc0, hty0, hx0⟩ := hinner
      rcases addDispenserFold_entry_origin shift tb.1 tb.2 dm0 tc0 htc0 x hx0 with
        ⟨tc1, htc1, hty1, hx1⟩ | ⟨hty1, c1, hc1, hxc1⟩
      · exact Or.inl ⟨tc1, htc1, hty1.trans hty0, hx1⟩
      · exact Or.inr ⟨tb, List.mem_cons_self _ _, hty0 ▸ hty1, c1, hc1, hxc1⟩
    · exact Or.inr ⟨tcB, List.mem_cons_of_mem _ htcB, hty, c, hc, hxc⟩

theorem addDispenserFold_mem_mono (shift : Coordinate → Coordinate) (t : String)
    (cs : List Coordinate) (dm : DispenserMap) (x : Coordinate)
    (h : x ∈ dm.getAllDispenserCoords) :
    x ∈ ((cs.foldl (fun dm c => dm.addDispenser t (shift c)) dm)).getAllDispenserCoords := by
  induction cs generalizing dm with
  | nil => exact h
  | cons c0 rest ih =>
    rw [List.foldl_cons]
    exact ih _ (addDispenser_mem_mono _ _ _ _ h)

theorem addDispenserFold_mem_self (shift : Coordinate → Coordinate) (t : String)
    (cs : List Coordinate) (dm : DispenserMap) (c : Coordinate) (hc : c ∈ cs) :
    shift c ∈ ((cs.foldl (fun dm c => dm.addDispenser t (shift c)) dm)).getAllDispenserCoords := by
  induction cs generalizing dm with
  | nil => simp at hc
  | cons c0 rest ih =>
    rw [List.foldl_cons]
    rcases List.mem_cons.mp hc with h2 | h2
    · subst h2
      exact addDispenserFold_mem_mono shift t rest _ _ (addDispenser_mem_self _ _ _)
    · exact ih _ h2

theorem mergeDispensers_mem_mono (shift : Coordinate → Coordinate)
    (bdisp : List (String × List Coordinate)) (dm0 : DispenserMap) (x : Coordinate)
    (h : x ∈ dm0.getAllDispenserCoords) :
    x ∈ (mergeDispensers shift bdisp dm0).getAllDispenserCoords := by
  induction bdisp generalizing dm0 with
  | nil => exact h
  | cons tb rest ih =>
    rw [mergeDispensers, List.foldl_cons]
    exact ih _ (addDispenserFold_mem_mono shift tb.1 tb.2 dm0 x h)

theorem mergeDispensers_mem_of_b (shift : Coordinate → Coordinate)
    (bdisp : List (String × List Coordinate)) (dm0 : DispenserMap)
    (tcB : String × List Coordinate) (htcB : tcB ∈ bdisp) (c : Coordinate)
    (hc : c ∈ tcB.2) :
    shift c ∈ (mergeDispensers shift bdisp dm0).getAllDispenserCoords := by
  induction bdisp generalizing dm0 with
  | nil => simp at htcB
  | cons tb rest ih =>
    rw [mergeDispensers, List.foldl_cons]
    rcases List.mem_cons.mp htcB with h2 | h2
    · subst h2
      exact mergeDispensers_mem_mono shift rest _ _
        (addDispenserFold_mem_self shift tcB.1 tcB.2 dm0 c hc)
    · exact ih _ h2

/-- Lookup preservation through the store/marker merge fold away from
the written keys. -/
theorem mergeShiftedEntry_lookup_other (shift : Coordinate → Coordinate)
    (st : List (Coordinate × MapValue)) (cv : Coordinate × MapValue) (x : Coordinate)
    (h : shift cv.1 ≠ x) :
    dictGet? (mergeShiftedEntry shift st cv) x = dictGet? st x := by
  simp only [mergeShiftedEntry]
  rcases hget : dictGet? st (shift cv.1) with _ | old
  · simp only [hget]
    exact dictGet?_insert_ne _ _ _ _ h
  · simp only [hget]
    split
    · exact dictGet?_insert_ne _ _ _ _ h
    · rfl

theorem mergeFold_preserve (shift : Coordinate → Coordinate)
    (entries st : List (Coordinate × MapValue)) (x : Coordinate)
    (h : ∀ cv ∈ entries, shift cv.1 ≠ x) :
    dictGet? (entries.foldl (mergeShiftedEntry shift) st) x = dictGet? st x := by
  induction entries generalizing st with
  | nil => rfl
  | cons cv rest ih =>
    rw [List.foldl_cons, ih _ (fun cv2 h2 => h cv2 (List.mem_cons_of_mem _ h2))]
    exact mergeShiftedEntry_lookup_other shift st cv x (h cv (List.mem_cons_self _ _))

/-- Lookup of the merged store/markers at the shifted key: with no prior
entry there and an injective shift, it is exactly the other map's entry. -/
theorem mergeFold_lookup (shift : Coordinate → Coordinate)
    (entries st : List (Coordinate × MapValue)) (k : Coordinate)
    (hnodup : (dictKeys entries).Nodup)
    (hinj : ∀ c : Coordinate, shift c = shift k → c = k)
    (hst : dictGet? st (shift k) = none) :
    dictGet? (entries.foldl (mergeShiftedEntry shift) st) (shift k) =
      dictGet? entries k := by
  induction entries generalizing st with
  | nil => exact hst
  | cons cv rest ih =>
    obtain ⟨k', v⟩ := cv
    rw [List.foldl_cons]
    simp only [dictKeys, List.map_cons, List.nodup_cons] at hnodup
    by_cases hk : k' = k
    · subst hk
      rw [dictGet?, if_pos rfl]
      have hstep : dictGet? (mergeShiftedEntry shift st (k', v)) (shift k') = some v := by
        simp only [mergeShiftedEntry, hst]
        exact dictGet?_insert_self _ _ _
      rw [mergeFold_preserve shift rest _ (shift k') ?hrest]
      · exact hstep
      case hrest =>
        intro cv2 h2 hcontr
        exact hnodup.1 (by
          have : cv2.1 = k' := hinj cv2.1 hcontr
          rw [← this]
          exact List.mem_map.mpr ⟨cv2, h2, rfl⟩)
    · rw [dictGet?, if_neg hk]
      apply ih _ hnodup.2
      rw [mergeShiftedEntry_lookup_other shift st (k', v) (shift k) ?hne]
      · exact hst
      case hne =>
        intro hcontr
        exact hk (hinj k' hcontr)

/-- Pure translation by a fixed offset; with both dimensions unset this is
exactly the re-keying function used by DynamicMap.merge. -/
def shiftBy (dx dy : Int) (c : Coordinate) : Coordinate := ⟨c.x + dx, c.y + dy⟩

theorem shiftBy_inj (dx dy : Int) (c k : Coordinate)
    (h : shiftBy dx dy c = shiftBy dx dy k) : c = k := by
  obtain ⟨cx, cy⟩ := c
  obtain ⟨kx, ky⟩ := k
  simp only [shiftBy, Coordinate.mk.injEq] at h ⊢
  omega

/-- First-containing-type query when all containing buckets agree on the
type. -/
theorem getDispVal_of_unique (dm : DispenserMap) (x : Coordinate) (t : String)
    (hex : ∃ tc ∈ dm.dispensers, x ∈ tc.2)
    (huniq : ∀ tc ∈ dm.dispensers, x ∈ tc.2 → tc.1 = t) :
    dm.getDispenserMapValueByCoord x = ⟨MapValueEnum.DISPENSER, t, 0⟩ := by
  unfold DispenserMap.getDispenserMapValueByCoord
  rcases hf : dm.dispensers.find? (fun tc => tc.2.contains x) with _ | tc
  · exfalso
    obtain ⟨tc, htc, hx⟩ := hex
    have := List.find?_eq_none.mp hf tc htc
    simp at this
    exact this hx
  · have hp := List.find?_some hf
    have hmem := List.mem_of_find?_eq_some hf
    have hp' : x ∈ tc.2 := by simpa using hp
    simp only [hf]
    rw [huniq tc hmem hp']

/-- Receiving map of the C1 counterexample: it already knows cell (0,0)
as an obstacle seen at step 5. -/
def C1A : DynamicMap :=
  ⟨0, 4, [], [], [], [(⟨0, 0⟩, ⟨MapValueEnum.OBSTACLE, "", 5⟩)], [], ⟨[]⟩, [], []⟩

/-- Merged-in map of the C1 counterexample: it knows cell (0,0) as empty,
seen at the older step 3. -/
def C1B : DynamicMap :=
  ⟨1, 4, [], [], [], [(⟨0, 0⟩, ⟨MapValueEnum.EMPTY, "", 3⟩)], [], ⟨[]⟩, [], []⟩

/-- C1 counterexample: with both anchors at the origin the translation is
(0,0), yet after the merge querying the receiving map at the shifted
coordinate does not return what the other map had recorded there: on a key
collision the receiving map's newer entry survives the merge, so the
claimed query-preservation fails. -/
theorem C1_counterexample :
    (DynamicMap.merge ⟨none, none⟩ C1A C1B Coordinate.origo Coordinate.origo).2 =
        ⟨0, 0⟩ ∧
      (DynamicMap.merge ⟨none, none⟩ C1A C1B Coordinate.origo
            Coordinate.origo).1.getMapValue ⟨0, 0⟩ true false ≠
        C1B.getMapValue ⟨0, 0⟩ true false := by
  decide

/-- C1 (amended): DynamicMap.merge always returns exactly the translation
anchorSelf − anchorOther (first conjunct, unconditionally); the
query-preservation half holds in the amended form: with both grid
dimensions unset, for a coordinate k whose shifted image is fresh in the
receiving map (no store entry, no marker, not a known dispenser cell) and
whose dispenser type in the other map is unambiguous, querying the merged
map at the shifted coordinate yields exactly what querying the other map
at k yields. -/
theorem C1_merge_amended (self other : DynamicMap) (p q k : Coordinate)
    (hks : (dictKeys other.store).Nodup)
    (hkm : (dictKeys other.markers).Nodup)
    (hs : dictGet? self.store ⟨k.x + (p.x - q.x), k.y + (p.y - q.y)⟩ = none)
    (hm : dictGet? self.markers ⟨k.x + (p.x - q.x), k.y + (p.y - q.y)⟩ = none)
    (hd : (⟨k.x + (p.x - q.x), k.y + (p.y - q.y)⟩ : Coordinate) ∉
      self.dispenserMap.getAllDispenserCoords)
    (t : String)
    (hdu : ∀ tc ∈ other.dispenserMap.dispensers, k ∈ tc.2 → tc.1 = t) :
    (∀ (g : Dims) (s2 o2 : DynamicMap) (p2 q2 : Coordinate),
        (DynamicMap.merge g s2 o2 p2 q2).2 = ⟨p2.x - q2.x, p2.y - q2.y⟩) ∧
      (DynamicMap.merge ⟨none, none⟩ self other p q).1.getMapValue
          ⟨k.x + (p.x - q.x), k.y + (p.y - q.y)⟩ true false =
        other.getMapValue k true false := by
  refine ⟨fun g s2 o2 p2 q2 => rfl, ?_⟩
  have hinj : ∀ c : Coordinate,
      shiftBy (p.x - q.x) (p.y - q.y) c = shiftBy (p.x - q.x) (p.y - q.y) k → c = k :=
    fun c hc => shiftBy_inj _ _ _ _ hc
  have hmark : dictGet? (DynamicMap.merge ⟨none, none⟩ self other p q).1.markers
      ⟨k.x + (p.x - q.x), k.y + (p.y - q.y)⟩ = dictGet? other.markers k := by
    have hproj : (DynamicMap.merge ⟨none, none⟩ self other p q).1.markers =
        other.markers.foldl
          (mergeShiftedEntry (shiftBy (p.x - q.x) (p.y - q.y))) self.markers := rfl
    rw [hproj]
    exact mergeFold_lookup _ other.markers self.markers k hkm hinj hm
  have hstore : dictGet? (DynamicMap.merge ⟨none, none⟩ self other p q).1.store
      ⟨k.x + (p.x - q.x), k.y + (p.y - q.y)⟩ = dictGet? other.store k := by
    have hproj : (DynamicMap.merge ⟨none, none⟩ self other p q).1.store =
        other.store.foldl
          (mergeShiftedEntry (shiftBy (p.x - q.x) (p.y - q.y))) self.store := rfl
    rw [hproj]
    exact mergeFold_lookup _ other.store self.store k hks hinj hs
  have hdproj : (DynamicMap.merge ⟨none, none⟩ self other p q).1.dispenserMap =
      mergeDispensers (shiftBy (p.x - q.x) (p.y - q.y))
        other.dispenserMap.dispensers self.dispenserMap := rfl
  have hdisp_iff :
      ((⟨k.x + (p.x - q.x), k.y + (p.y - q.y)⟩ : Coordinate) ∈
        (DynamicMap.merge ⟨none, none⟩ self other p
          q).1.dispenserMap.getAllDispenserCoords) ↔
      k ∈ other.dispenserMap.getAllDispenserCoords := by
    rw [hdproj]
    constructor
    · intro hmem
      obtain ⟨tc', htc', hx⟩ := (mem_getAllDispenserCoords_iff _ _).mp hmem
      rcases mergeDispensers_entry_origin _ _ _ _ htc' _ hx with
        ⟨tc0, h0, _, hx0⟩ | ⟨tcB, htcB, _, c, hc, hxc⟩
      · exact absurd ((mem_getAllDispenserCoords_iff _ _).mpr ⟨tc0, h0, hx0⟩) hd
      · have hck : c = k := hinj c hxc.symm
        subst hck
        exact (mem_getAllDispenserCoords_iff _ _).mpr ⟨tcB, htcB, hc⟩
    · intro hmem
      obtain ⟨tcB, htcB, hk2⟩ := (mem_getAllDispenserCoords_iff _ _).mp hmem
      exact mergeDispensers_mem_of_b _ _ _ tcB htcB k hk2
  have hLdisp : k ∈ other.dispenserMap.getAllDispenserCoords →
      (DynamicMap.merge ⟨none, none⟩ self other p
          q).1.dispenserMap.getDispenserMapValueByCoord
        ⟨k.x + (p.x - q.x), k.y + (p.y - q.y)⟩ = ⟨MapValueEnum.DISPENSER, t, 0⟩ := by
    intro hmem
    rw [hdproj]
    apply getDispVal_of_unique
    · obtain ⟨tcB, htcB, hk2⟩ := (mem_getAllDispenserCoords_iff _ _).mp hmem
      have hmm := mergeDispensers_mem_of_b (shiftBy (p.x - q.x) (p.y - q.y))
        other.dispenserMap.dispensers self.dispenserMap tcB htcB k hk2
      exact (mem_getAllDispenserCoords_iff _ _).mp hmm
    · intro tc htc hsk
      rcases mergeDispensers_entry_origin _ _ _ _ htc _ hsk with
        ⟨tc0, h0, _, hx0⟩ | ⟨tcB, htcB, hty, c, hc, hxc⟩
      · exact absurd ((mem_getAllDispenserCoords_iff _ _).mpr ⟨tc0, h0, hx0⟩) hd
      · have hck : c = k := hinj c hxc.symm
        rw [hty]
        exact hdu tcB htcB (hck ▸ hc)
  have hRdisp : k ∈ other.dispenserMap.getAllDispenserCoords →
      other.dispenserMap.getDispenserMapValueByCoord k =
        ⟨MapValueEnum.DISPENSER, t, 0⟩ := by
    intro hmem
    obtain ⟨tcB, htcB, hk2⟩ := (mem_getAllDispenserCoords_iff _ _).mp hmem
    exact getDispVal_of_unique other.dispenserMap k t ⟨tcB, htcB, hk2⟩ hdu
  rcases hmv : dictGet? other.markers k with _ | mv
  · rcases hsv : dictGet? other.store k with _ | v
    · simp [DynamicMap.getMapValue, hmark, hstore, hmv, hsv]
    · by_cases hdm : k ∈ other.dispenserMap.getAllDispenserCoords
      · by_cases hav : v.value ∈ [MapValueEnum.AGENT, MapValueEnum.BLOCK]
        · simp [DynamicMap.getMapValue, hmark, hstore, hmv, hsv, hav]
        · have hmem' := hdisp_iff.mpr hdm
          simp [DynamicMap.getMapValue, hmark, hstore, hmv, hsv, hav, hdm, hmem',
            hLdisp hdm, hRdisp hdm]
      · have hmem' : (⟨k.x + (p.x - q.x), k.y + (p.y - q.y)⟩ : Coordinate) ∉
            (DynamicMap.merge ⟨none, none⟩ self other p
              q).1.dispenserMap.getAllDispenserCoords :=
          fun h => hdm (hdisp_iff.mp h)
        simp [DynamicMap.getMapValue, hmark, hstore, hmv, hsv, hdm, hmem']
  · simp [DynamicMap.getMapValue, hmark, hmv]

/-- Receiving map of the C1 witness: its entries stand clear of the
shifted image of the queried cell. -/
def C1Aw : DynamicMap :=
  ⟨0, 4, [], [], [], [(⟨5, 5⟩, ⟨MapValueEnum.OBSTACLE, "", 1⟩)], [],
    ⟨[("b0", [⟨7, 7⟩])]⟩, [], []⟩

/-- Merged-in map of the C1 witness: a dispenser of type b1 at (0,0). -/
def C1Bw : DynamicMap :=
  ⟨1, 4, [], [], [], [(⟨0, 0⟩, ⟨MapValueEnum.DISPENSER, "b1", 3⟩)], [],
    ⟨[("b1", [⟨0, 0⟩])]⟩, [], []⟩

theorem C1_merge_amended_witness :
    (DynamicMap.merge ⟨none, none⟩ C1Aw C1Bw ⟨2, 0⟩ ⟨1, 0⟩).1.getMapValue
        ⟨(0 : Int) + ((2 : Int) - 1), (0 : Int) + ((0 : Int) - 0)⟩ true false =
      C1Bw.getMapValue ⟨0, 0⟩ true false :=
  (C1_merge_amended C1Aw C1Bw ⟨2, 0⟩ ⟨1, 0⟩ ⟨0, 0⟩ (by decide) (by decide)
    (by decide) (by decide) (by decide) "b1" (by decide)).2

/-- The per-teammate identification step always extends the accumulated
candidate list by the candidates of the current coordinate, whatever else
it does. -/
theorem identStep_snd (g : Dims) (percepts : List (String × Percept))
    (agentId : String) (dynamicPercept : Percept)
    (st : IdentState × List (String × Coordinate)) (c : Coordinate) :
    (identStepForCoord g percepts agentId dynamicPercept st c).2 =
      st.2 ++ candidatesForCoord percepts agentId dynamicPercept c := by
  simp only [identStepForCoord]
  rcases hc : st.2 ++ candidatesForCoord percepts agentId dynamicPercept c with
    _ | ⟨cand, _ | ⟨c2, rest2⟩⟩
  · simp only [hc]
  · simp only [hc]
    split
    · rfl
    · split <;> rfl
  · simp only [hc]

/-- When the accumulated candidate list is not a singleton, the step
leaves the identification state untouched. -/
theorem identStep_fst_of_ne_one (g : Dims) (percepts : List (String × Percept))
    (agentId : String) (dynamicPercept : Percept)
    (st : IdentState × List (String × Coordinate)) (c : Coordinate)
    (h : (st.2 ++ candidatesForCoord percepts agentId dynamicPercept c).length ≠ 1) :
    (identStepForCoord g percepts agentId dynamicPercept st c).1 = st.1 := by
  simp only [identStepForCoord]
  rcases hc : st.2 ++ candidatesForCoord percepts agentId dynamicPercept c with
    _ | ⟨cand, _ | ⟨c2, rest2⟩⟩
  · simp only [hc]
  · rw [hc] at h
    simp at h
  · simp only [hc]

/-- The candidate accumulator after folding the identification step over a
coordinate list is the concatenation of each coordinate's candidates. -/
theorem identFold_snd (g : Dims) (percepts : List (String × Percept))
    (agentId : String) (dynamicPercept : Percept) (cs : List Coordinate) :
    ∀ st : IdentState × List (String × Coordinate),
      ((cs.foldl (identStepForCoord g percepts agentId dynamicPercept) st)).2 =
        st.2 ++ cs.flatMap (candidatesForCoord percepts agentId dynamicPercept) := by
  induction cs with
  | nil => intro st; simp
  | cons c0 rest ih =>
    intro st
    rw [List.foldl_cons, ih, identStep_snd]
    simp

/-- C2 counterexample data: agent A of team T sees two teammates; B and C
each see A from the matching spot. -/
def C2pA : Percept :=
  [(⟨0, 0⟩, ⟨MapValueEnum.AGENT, "T", 0⟩), (⟨2, 0⟩, ⟨MapValueEnum.AGENT, "T", 0⟩),
    (⟨0, 2⟩, ⟨MapValueEnum.AGENT, "T", 0⟩)]

/-- Percept of agent B: it sees A two cells to the west. -/
def C2pB : Percept :=
  [(⟨0, 0⟩, ⟨MapValueEnum.AGENT, "T", 0⟩), (⟨-2, 0⟩, ⟨MapValueEnum.AGENT, "T", 0⟩)]

/-- Percept of agent C: it sees A two cells to the north. -/
def C2pC : Percept :=
  [(⟨0, 0⟩, ⟨MapValueEnum.AGENT, "T", 0⟩), (⟨0, -2⟩, ⟨MapValueEnum.AGENT, "T", 0⟩)]

/-- The three percepts of the C2 scenario. -/
def C2percepts : List (String × Percept) := [("A", C2pA), ("B", C2pB), ("C", C2pC)]

/-- Registry of the C2 scenario: each agent still owns its own map. -/
def C2server : MapServer :=
  ⟨[("A", 1), ("B", 2), ("C", 3)],
    [(1, ⟨1, 4, [("A", ⟨0, 0⟩)], [("A", ⟨0, 0⟩)], [], [], [], ⟨[]⟩, [], []⟩),
      (2, ⟨2, 4, [("B", ⟨0, 0⟩)], [("B", ⟨0, 0⟩)], [], [], [], ⟨[]⟩, [], []⟩),
      (3, ⟨3, 4, [("C", ⟨0, 0⟩)], [("C", ⟨0, 0⟩)], [], [], [], ⟨[]⟩, [], []⟩)],
    4, none, none, C2percepts⟩

/-- C2 counterexample: during one identification run for agent A, two
candidates pass the contradiction check overall (B and C, one per observed
teammate), and a merge is nevertheless triggered — the uniqueness check is
applied to the accumulated prefix after each observed coordinate, never to
the full per-agent candidate set, so the first singleton prefix already
fires the merge. -/
theorem C2_counterexample :
    (processIdentForAgentFull ⟨none, none⟩ C2percepts ⟨C2server, [], false⟩
        "A" C2pA).2.length = 2 ∧
      (processIdentForAgentFull ⟨none, none⟩ C2percepts ⟨C2server, [], false⟩
          "A" C2pA).1.offsets ≠ [] := by
  decide

/-- C2 (amended): the identification step for one observed teammate acts
only when the candidate list accumulated so far (across all previously
processed teammates of this agent, never reset) plus the current
teammate's candidates has exactly one entry; with any other length the
registry state passes through unchanged, and the accumulator after the
whole run is the concatenation of every observed teammate's candidate
list. -/
theorem C2_unique_candidate_amended (g : Dims) (percepts : List (String × Percept))
    (agentId : String) (dynamicPercept : Percept)
    (st : IdentState × List (String × Coordinate)) (c : Coordinate)
    (ist : IdentState)
    (h : (st.2 ++ candidatesForCoord percepts agentId dynamicPercept c).length ≠ 1) :
    (identStepForCoord g percepts agentId dynamicPercept st c).1 = st.1 ∧
      (identStepForCoord g percepts agentId dynamicPercept st c).2 =
        st.2 ++ candidatesForCoord percepts agentId dynamicPercept c ∧
      (processIdentForAgentFull g percepts ist agentId dynamicPercept).2 =
        (unknownOtherAgents dynamicPercept).flatMap
          (candidatesForCoord percepts agentId dynamicPercept) := by
  refine ⟨identStep_fst_of_ne_one g percepts agentId dynamicPercept st c h,
    identStep_snd g percepts agentId dynamicPercept st c, ?_⟩
  rw [processIdentForAgentFull, identFold_snd]
  simp

theorem C2_unique_candidate_amended_witness :
    (identStepForCoord ⟨none, none⟩ C2percepts "A" C2pA
        (⟨C2server, [], false⟩, [("B", ⟨2, 0⟩)]) ⟨0, 2⟩).1 =
        (⟨C2server, [], false⟩ : IdentState) ∧
      (identStepForCoord ⟨none, none⟩ C2percepts "A" C2pA
          (⟨C2server, [], false⟩, [("B", ⟨2, 0⟩)]) ⟨0, 2⟩).2 =
        [("B", ⟨2, 0⟩)] ++ candidatesForCoord C2percepts "A" C2pA ⟨0, 2⟩ ∧
      (processIdentForAgentFull ⟨none, none⟩ C2percepts ⟨C2server, [], false⟩
          "A" C2pA).2 =
        (unknownOtherAgents C2pA).flatMap (candidatesForCoord C2percepts "A" C2pA) :=
  C2_unique_candidate_amended ⟨none, none⟩ C2percepts "A" C2pA
    (⟨C2server, [], false⟩, [("B", ⟨2, 0⟩)]) ⟨0, 2⟩ ⟨C2server, [], false⟩ (by decide)

/-! Claim C6: admissibility of the Euclidean heuristic against the edge
cost model.  A path is a chain of planner steps (each destination taken
from Coordinate.neighbors, the successor set used by getNeighbors), each
edge carrying the attachment state and rotation dictionary under which
the planner prices it. -/

/-- One edge of a candidate path, with the data distanceCost consumes. -/
structure EdgeChoice where
  src : Coordinate
  dst : Coordinate
  attached : List Coordinate
  rotateDict : Option (List (Direction × Bool))
deriving DecidableEq

/-- A chain of planner steps from a to b: every edge starts where the
previous one ended and its destination is one of the planner's neighbor
cells. -/
def validSteps (g : Dims) : Coordinate → Coordinate → List EdgeChoice → Bool
  | a, b, [] => a = b
  | a, b, e :: es =>
    decide (e.src = a) && decide (e.dst ∈ Coordinate.neighbors g a true 1 0) &&
      validSteps g e.dst b es

/-- Total edge cost of a path under the planner's cost model. -/
def pathCost (g : Dims) (m : DynamicMap) (agentTravelTime : ℚ)
    (clearSuccessTime : Int) (clearCost : ℚ) (es : List EdgeChoice) : ℚ :=
  es.foldl (fun acc e => acc +
    (distanceCost g m e.src e.dst agentTravelTime clearSuccessTime clearCost
      e.attached e.rotateDict).1) 0

theorem relAxis_zero (w : Option Int) : relAxis w 0 = 0 := by
  cases w with
  | none => rfl
  | some x => simp [relAxis, Int.zero_fmod]

theorem manhattan_self (g : Dims) (a : Coordinate) :
    Coordinate.manhattanDistance g a a = 0 := by
  simp [Coordinate.manhattanDistance, Coordinate.getRelativeCoordinate, relAxis_zero]

/-- Triangle inequality for the wrap-reduced residue on one axis. -/
theorem relAxis_triangle (w : Option Int) (hv : axisValid w) (u v : Int) :
    |relAxis w (u + v)| ≤ |relAxis w u| + |relAxis w v| := by
  cases w with
  | none => exact abs_add u v
  | some x =>
    have hx : 0 < x := hv x rfl
    have h1 := relAxis_congr x u hx
    have h2 := relAxis_congr x v hx
    have hsum : x ∣ ((u + v) - (relAxis (some x) u + relAxis (some x) v)) := by
      have h3 := Int.dvd_add h1 h2
      have heq : u - relAxis (some x) u + (v - relAxis (some x) v) =
          (u + v) - (relAxis (some x) u + relAxis (some x) v) := by ring
      rwa [heq] at h3
    have hmin := relAxis_minabs x (u + v) _ hx hsum
    have habs := Int.natAbs_add_le (relAxis (some x) u) (relAxis (some x) v)
    simp only [Int.abs_eq_natAbs]
    omega

/-- Triangle inequality for the wrap-aware Manhattan distance. -/
theorem manhattan_triangle (g : Dims) (hg : g.valid) (a b c : Coordinate) :
    Coordinate.manhattanDistance g a b ≤
      Coordinate.manhattanDistance g a c + Coordinate.manhattanDistance g c b := by
  simp only [Coordinate.manhattanDistance, Coordinate.getRelativeCoordinate]
  have hx := relAxis_triangle g.maxWidth hg.1 (c.x - a.x) (b.x - c.x)
  have hy := relAxis_triangle g.maxHeight hg.2 (c.y - a.y) (b.y - c.y)
  have hex : c.x - a.x + (b.x - c.x) = b.x - a.x := by ring
  have hey : c.y - a.y + (b.y - c.y) = b.y - a.y := by ring
  rw [hex] at hx
  rw [hey] at hy
  linarith

/-- Every listed neighbor lies within the search range in wrap-aware
Manhattan distance. -/
theorem manhattan_le_of_mem_neighbors (g : Dims) (c n : Coordinate) (r d : Int)
    (hn : n ∈ Coordinate.neighbors g c true r d) :
    Coordinate.manhattanDistance g c n ≤ r := by
  simp only [Coordinate.neighbors] at hn
  have hn' := List.mem_of_mem_erase hn
  simp only [List.mem_flatMap, List.mem_filterMap] at hn'
  obtain ⟨i, _, j, _, hj⟩ := hn'
  split at hj
  · next hcond =>
    injection hj with hj
    subst hj
    exact hcond.1
  · simp at hj

/-- The wrap-aware Manhattan distance never exceeds the number of edges of
any planner path. -/
theorem manhattan_le_steps (g : Dims) (hg : g.valid) :
    ∀ (es : List EdgeChoice) (a b : Coordinate), validSteps g a b es = true →
      Coordinate.manhattanDistance g a b ≤ (es.length : Int) := by
  intro es
  induction es with
  | nil =>
    intro a b h
    simp only [validSteps, decide_eq_true_eq] at h
    subst h
    simp [manhattan_self]
  | cons e rest ih =>
    intro a b h
    simp only [validSteps, Bool.and_eq_true, decide_eq_true_eq] at h
    obtain ⟨⟨_, hn⟩, hrest⟩ := h
    have h1 := manhattan_le_of_mem_neighbors g a e.dst 1 0 hn
    have h2 := ih e.dst b hrest
    have h3 := manhattan_triangle g hg a b e.dst
    simp only [List.length_cons]
    push_cast
    linarith

theorem distanceCostWithoutRotating_ge_one (ev : MapValueEnum) (travelTime : ℚ)
    (cst : Int) (cc : ℚ) (ht : 1 ≤ travelTime)
    (hct : 0 ≤ clearCostTotal cst cc) :
    1 ≤ distanceCostWithoutRotating ev travelTime cst cc := by
  have hbl : (1 : ℚ) ≤ blockClearValue := by norm_num [blockClearValue]
  simp only [distanceCostWithoutRotating]
  split_ifs <;> linarith

theorem distanceCostWithRotating_ge_one (g : Dims) (m : DynamicMap)
    (cu nx : Coordinate) (cst : Int) (cc : ℚ) (a0 : Coordinate)
    (hct : 0 ≤ clearCostTotal cst cc) :
    1 ≤ distanceCostWithRotating g m cu nx cst cc a0 := by
  have hbl : (1 : ℚ) ≤ blockClearValue := by norm_num [blockClearValue]
  simp only [distanceCostWithRotating]
  split_ifs <;> linarith

theorem arcClearCost_nonneg (m : DynamicMap) (cst : Int) (cc : ℚ)
    (coords : List Coordinate) (hct : 0 ≤ clearCostTotal cst cc) :
    0 ≤ arcClearCost m cst cc coords := by
  have hbl : (0 : ℚ) ≤ blockClearValue := by norm_num [blockClearValue]
  have key : ∀ (cs : List Coordinate) (acc : ℚ), 0 ≤ acc →
      0 ≤ cs.foldl (fun acc c =>
        let coordValue := m.getMapValueEnum c false false
        if coordValue = MapValueEnum.OBSTACLE then
          acc + clearCostTotal cst cc
        else if coordValue = MapValueEnum.BLOCK then
          acc + blockClearValue + clearCostTotal cst cc
        else acc) acc := by
    intro cs
    induction cs with
    | nil => intro acc h; simpa using h
    | cons c0 rest ih =>
      intro acc h
      rw [List.foldl_cons]
      apply ih
      dsimp only
      split_ifs <;> linarith
  exact key coords 0 le_rfl

theorem distanceCostWithOppositeRotating_fst_ge_one (g : Dims) (m : DynamicMap)
    (cu nx : Coordinate) (cst : Int) (cc : ℚ) (rd : List (Direction × Bool))
    (hct : 0 ≤ clearCostTotal cst cc) :
    1 ≤ (distanceCostWithOppositeRotating g m cu nx cst cc rd).1 := by
  have harc : ∀ coords : List Coordinate,
      (1 : ℚ) ≤ 6 + arcClearCost m cst cc coords := by
    intro coords
    have h0 := arcClearCost_nonneg m cst cc coords hct
    linarith
  simp only [distanceCostWithOppositeRotating]
  split_ifs <;> exact harc _

/-- Every edge of the planner costs at least one unit once the travel time
is at least 1 and the clear surcharge terms are nonnegative. -/
theorem distanceCost_ge_one (g : Dims) (m : DynamicMap) (cu nx : Coordinate)
    (travelTime : ℚ) (cst : Int) (cc : ℚ) (att : List Coordinate)
    (rd : Option (List (Direction × Bool)))
    (ht : 1 ≤ travelTime) (hcst : 0 ≤ cst) (hcc : 0 ≤ cc) :
    1 ≤ (distanceCost g m cu nx travelTime cst cc att rd).1 := by
  have hct : (0 : ℚ) ≤ clearCostTotal cst cc := by
    rw [clearCostTotal]
    have h0 : (0 : ℚ) ≤ (cst : ℚ) := by exact_mod_cast hcst
    linarith
  have hwo : ∀ ev, 1 ≤ distanceCostWithoutRotating ev travelTime cst cc :=
    fun ev => distanceCostWithoutRotating_ge_one ev travelTime cst cc ht hct
  rcases att with _ | ⟨a0, _ | ⟨a1, arest⟩⟩
  · exact hwo _
  · rcases rd with _ | rdv
    · exact hwo _
    · simp only [distanceCost]
      split_ifs
      · exact hwo _
      · exact distanceCostWithOppositeRotating_fst_ge_one g m cu nx cst cc rdv hct
      · exact distanceCostWithRotating_ge_one g m cu nx cst cc a0 hct
  · exact hwo _

/-- A path of n edges costs at least n. -/
theorem pathCost_ge_length (g : Dims) (m : DynamicMap) (travelTime : ℚ)
    (cst : Int) (cc : ℚ) (ht : 1 ≤ travelTime) (hcst : 0 ≤ cst) (hcc : 0 ≤ cc) :
    ∀ es : List EdgeChoice, (es.length : ℚ) ≤ pathCost g m travelTime cst cc es := by
  have key : ∀ (es : List EdgeChoice) (acc : ℚ),
      acc + (es.length : ℚ) ≤ es.foldl (fun acc e => acc +
        (distanceCost g m e.src e.dst travelTime cst cc
          e.attached e.rotateDict).1) acc := by
    intro es
    induction es with
    | nil => intro acc; simp
    | cons e rest ih =>
      intro acc
      rw [List.foldl_cons]
      have h2 := ih (acc +
        (distanceCost g m e.src e.dst travelTime cst cc e.attached e.rotateDict).1)
      have h1 := distanceCost_ge_one g m e.src e.dst travelTime cst cc
        e.attached e.rotateDict ht hcst hcc
      simp only [List.length_cons]
      push_cast
      push_cast at h2
      linarith
  intro es
  have h0 := key es 0
  rw [pathCost]
  linarith

/-- The Euclidean heuristic is bounded by the wrap-aware Manhattan
distance. -/
theorem sqrt_distSq_le_manhattan (g : Dims) (a b : Coordinate) :
    Real.sqrt ((Coordinate.distSq g a b : Int) : ℝ) ≤
      ((Coordinate.manhattanDistance g a b : Int) : ℝ) := by
  simp only [Coordinate.distSq, Coordinate.manhattanDistance]
  have h1 : (((Coordinate.getRelativeCoordinate g a b).x ^ 2 +
      (Coordinate.getRelativeCoordinate g a b).y ^ 2 : Int) : ℝ) ≤
      ((|(Coordinate.getRelativeCoordinate g a b).x| +
        |(Coordinate.getRelativeCoordinate g a b).y| : Int) : ℝ) ^ 2 := by
    push_cast
    nlinarith [sq_abs ((Coordinate.getRelativeCoordinate g a b).x : ℝ),
      sq_abs ((Coordinate.getRelativeCoordinate g a b).y : ℝ),
      mul_nonneg (abs_nonneg ((Coordinate.getRelativeCoordinate g a b).x : ℝ))
        (abs_nonneg ((Coordinate.getRelativeCoordinate g a b).y : ℝ))]
  calc Real.sqrt (((Coordinate.getRelativeCoordinate g a b).x ^ 2 +
        (Coordinate.getRelativeCoordinate g a b).y ^ 2 : Int) : ℝ)
      ≤ Real.sqrt (((|(Coordinate.getRelativeCoordinate g a b).x| +
          |(Coordinate.getRelativeCoordinate g a b).y| : Int) : ℝ) ^ 2) :=
        Real.sqrt_le_sqrt h1
    _ = ((|(Coordinate.getRelativeCoordinate g a b).x| +
          |(Coordinate.getRelativeCoordinate g a b).y| : Int) : ℝ) := by
        apply Real.sqrt_sq
        push_cast
        positivity

/-- Edge of the C6 counterexample path: one straight free step east. -/
def C6edge : EdgeChoice := ⟨⟨0, 0⟩, ⟨1, 0⟩, [], none⟩

/-- Travel constants of the C6 counterexample: an agent of speed 2. -/
def C6t : ℚ × ℚ × Int := calculateTravelConstantCosts 2 0 100 100 1 0

/-- C6 counterexample: with agent speed 2 a straight move into a free
cell costs 1/2, while the Euclidean heuristic of that one-cell path is 1,
so the heuristic overestimates the real path cost and is not
admissible. -/
theorem C6_counterexample :
    validSteps ⟨none, none⟩ ⟨0, 0⟩ ⟨1, 0⟩ [C6edge] = true ∧
      ¬ (Real.sqrt ((Coordinate.distSq ⟨none, none⟩ ⟨0, 0⟩ ⟨1, 0⟩ : Int) : ℝ) ≤
        ((pathCost ⟨none, none⟩ emptyDynamicMap C6t.1 C6t.2.2 C6t.2.1
            [C6edge] : ℚ) : ℝ)) := by
  constructor
  · decide
  · have h1 : (Coordinate.distSq ⟨none, none⟩ ⟨0, 0⟩ ⟨1, 0⟩ : Int) = 1 := by decide
    have h2 : pathCost ⟨none, none⟩ emptyDynamicMap C6t.1 C6t.2.2 C6t.2.1 [C6edge] =
        1 / 2 := by decide
    rw [h1, h2]
    push_cast
    rw [Real.sqrt_one]
    norm_num

/-- Dimensions with two positive extents are valid. -/
theorem dimsValid_of_pos (w h : Int) (hw : 0 < w) (hh : 0 < h) :
    (Dims.mk (some w) (some h)).valid := by
  constructor <;> intro v hv <;> simp [Option.mem_def] at hv <;> omega

/-- C6 (amended): the Euclidean heuristic is an admissible underestimate
of the total edge cost of every planner path only under the unit-speed
regime: when the agent's speed is 1 (travel time 1/speed at least one
unit), the clear success chance is positive and the clear constant cost
is nonnegative with a positive maximum energy, every path from a to b
costs at least sqrt(distSq(a,b)); for speeds above 1 the heuristic can
overestimate (see the counterexample), so the claim as stated is false. -/
theorem C6_admissible_amended (g : Dims) (hg : g.valid) (m : DynamicMap)
    (agentSpeed clearEnergyCost agentEnergy agentMaxEnergy : Int)
    (clearChance clearConstantCost : ℚ)
    (hsp0 : 0 < agentSpeed) (hsp1 : agentSpeed ≤ 1)
    (hch : 0 < clearChance) (hconst : 0 ≤ clearConstantCost)
    (hmaxE : 0 < agentMaxEnergy)
    (a b : Coordinate) (es : List EdgeChoice)
    (hpath : validSteps g a b es = true) :
    Real.sqrt ((Coordinate.distSq g a b : Int) : ℝ) ≤
      ((pathCost g m
          (calculateTravelConstantCosts agentSpeed clearEnergyCost agentEnergy
            agentMaxEnergy clearChance clearConstantCost).1
          (calculateTravelConstantCosts agentSpeed clearEnergyCost agentEnergy
            agentMaxEnergy clearChance clearConstantCost).2.2
          (calculateTravelConstantCosts agentSpeed clearEnergyCost agentEnergy
            agentMaxEnergy clearChance clearConstantCost).2.1 es : ℚ) : ℝ) := by
  have hs1 : agentSpeed = 1 := by omega
  have ht : (1 : ℚ) ≤ (calculateTravelConstantCosts agentSpeed clearEnergyCost
      agentEnergy agentMaxEnergy clearChance clearConstantCost).1 := by
    subst hs1
    norm_num [calculateTravelConstantCosts]
  have hcst : (0 : Int) ≤ (calculateTravelConstantCosts agentSpeed clearEnergyCost
      agentEnergy agentMaxEnergy clearChance clearConstantCost).2.2 := by
    simp only [calculateTravelConstantCosts]
    exact Int.ceil_nonneg (le_of_lt (one_div_pos.mpr hch))
  have hcc : (0 : ℚ) ≤ (calculateTravelConstantCosts agentSpeed clearEnergyCost
      agentEnergy agentMaxEnergy clearChance clearConstantCost).2.1 := by
    simp only [calculateTravelConstantCosts]
    apply div_nonneg hconst
    apply div_nonneg
    · exact le_trans (by norm_num) (le_max_right _ _)
    · exact_mod_cast le_of_lt hmaxE
  have hman := manhattan_le_steps g hg es a b hpath
  have hlen := pathCost_ge_length g m _ _ _ ht hcst hcc es
  calc Real.sqrt ((Coordinate.distSq g a b : Int) : ℝ)
      ≤ ((Coordinate.manhattanDistance g a b : Int) : ℝ) :=
        sqrt_distSq_le_manhattan g a b
    _ ≤ (es.length : ℝ) := by exact_mod_cast hman
    _ ≤ _ := by exact_mod_cast hlen

theorem C6_admissible_amended_witness :
    Real.sqrt ((Coordinate.distSq ⟨some 10, some 10⟩ ⟨0, 0⟩ ⟨1, 0⟩ : Int) : ℝ) ≤
      ((pathCost ⟨some 10, some 10⟩ emptyDynamicMap
          (calculateTravelConstantCosts 1 2 100 100 1 0).1
          (calculateTravelConstantCosts 1 2 100 100 1 0).2.2
          (calculateTravelConstantCosts 1 2 100 100 1 0).2.1
          [⟨⟨0, 0⟩, ⟨1, 0⟩, [], none⟩] : ℚ) : ℝ) :=
  C6_admissible_amended ⟨some 10, some 10⟩
    (dimsValid_of_pos 10 10 (by decide) (by decide)) emptyDynamicMap
    1 2 100 100 1 0 (by decide) (by decide) (by norm_num) (by norm_num)
    (by decide) ⟨0, 0⟩ ⟨1, 0⟩ [⟨⟨0, 0⟩, ⟨1, 0⟩, [], none⟩] (by decide)

/-! Claim C4: degradation behaviour of the bounded A* search. -/

/-- Trivial shuffle (one admissible outcome of random.shuffle). -/
def C4shuffles : Nat → List NbrEntry → List NbrEntry := fun _ l => l

/-- Map of the C4 counterexample: a foreign block just north of the
start. -/
def C4map : DynamicMap :=
  ⟨0, 4, [], [], [], [(⟨0, 1⟩, ⟨MapValueEnum.BLOCK, "b1", 1⟩)], [], ⟨[]⟩, [], []⟩

/-- Pathfinder inputs of the C4 counterexample: unit speed, a single
allowed iteration (maxIteration 0), vision 5. -/
def C4pfd : PathFinderData := ⟨C4map, ⟨0, 0⟩, 1, 0, 100, 100, 1, 0, 0, 5, []⟩

/-- Travel constants of the C4 counterexample. -/
def C4t : ℚ × ℚ × Int := calculateTravelConstantCosts 1 0 100 100 1 0

/-- The full output of the counterexample's search (result, expanded
coordinates, final state). -/
def C4out : Option AStarResult × List Coordinate × AStarState :=
  AStarBody ⟨none, none⟩ C4map ⟨0, 0⟩ ⟨0, 5⟩ C4t.1 C4t.2.1 C4t.2.2 0 5 false []
    C4shuffles

/-- The coordinate the claim designates: the already-expanded coordinate
of minimal Euclidean distance to the goal (stated from the claim's words,
for comparison with the code's choice). -/
def claimExpandedTarget (g : Dims) (stop : Coordinate)
    (expanded : List Coordinate) : Option Coordinate :=
  minByDistSq g stop expanded

/-- C4 counterexample: the bounded search expands only the start, ends
with a non-empty open set, and the code's fallback target is the
discovered frontier cell (0,1) — not the expanded coordinate of minimal
heuristic distance, which is the start itself — so findNextAction heads
toward a never-expanded cell (here with a clear action). -/
theorem C4_counterexample :
    (C4out.2.1 = [⟨0, 0⟩] ∧ C4out.2.2.openSet ≠ []) ∧
      C4out.1.map AStarResult.endCoordinate = some (some ⟨0, 1⟩) ∧
      claimExpandedTarget ⟨none, none⟩ ⟨0, 5⟩ C4out.2.1 = some ⟨0, 0⟩ ∧
      C4out.1.map AStarResult.endCoordinate ≠
        some (claimExpandedTarget ⟨none, none⟩ ⟨0, 5⟩ C4out.2.1) ∧
      findNextAction ⟨none, none⟩ C4pfd ⟨0, 5⟩ false C4shuffles =
        some (AgentAction.clear ⟨0, 1⟩) := by
  decide

/-- The running minimum of minByDistSq is a member of the list and
minimizes the squared distance to the goal. -/
theorem foldl_minBy_spec (g : Dims) (stop : Coordinate) :
    ∀ (cs : List Coordinate) (c0 : Coordinate),
      (cs.foldl (fun best c2 =>
          if Coordinate.distSq g c2 stop < Coordinate.distSq g best stop then c2
          else best) c0) ∈ c0 :: cs ∧
      Coordinate.distSq g (cs.foldl (fun best c2 =>
          if Coordinate.distSq g c2 stop < Coordinate.distSq g best stop then c2
          else best) c0) stop ≤ Coordinate.distSq g c0 stop ∧
      ∀ c ∈ cs, Coordinate.distSq g (cs.foldl (fun best c2 =>
          if Coordinate.distSq g c2 stop < Coordinate.distSq g best stop then c2
          else best) c0) stop ≤ Coordinate.distSq g c stop := by
  intro cs
  induction cs with
  | nil =>
    intro c0
    exact ⟨List.mem_singleton.mpr rfl, le_refl _, by simp⟩
  | cons c1 rest ih =>
    intro c0
    simp only [List.foldl_cons]
    by_cases h : Coordinate.distSq g c1 stop < Coordinate.distSq g c0 stop
    · rw [if_pos h]
      obtain ⟨hmem, hle0, hall⟩ := ih c1
      refine ⟨?_, ?_, ?_⟩
      · rcases List.mem_cons.mp hmem with h2 | h2
        · rw [h2]
          exact List.mem_cons_of_mem _ (List.mem_cons_self _ _)
        · exact List.mem_cons_of_mem _ (List.mem_cons_of_mem _ h2)
      · exact le_trans hle0 (le_of_lt h)
      · intro c hc
        rcases List.mem_cons.mp hc with h2 | h2
        · subst h2
          exact hle0
        · exact hall c h2
    · rw [if_neg h]
      obtain ⟨hmem, hle0, hall⟩ := ih c0
      refine ⟨?_, ?_, ?_⟩
      · rcases List.mem_cons.mp hmem with h2 | h2
        · rw [h2]
          exact List.mem_cons_self _ _
        · exact List.mem_cons_of_mem _ (List.mem_cons_of_mem _ h2)
      · exact hle0
      · intro c hc
        rcases List.mem_cons.mp hc with h2 | h2
        · subst h2
          exact le_trans hle0 (not_lt.mp h)
        · exact hall c h2

/-- Python's min over a nonempty coordinate list keyed by the heuristic:
existence, membership and minimality. -/
theorem minByDistSq_spec (g : Dims) (stop : Coordinate) (c0 : Coordinate)
    (cs : List Coordinate) :
    ∃ closest, minByDistSq g stop (c0 :: cs) = some closest ∧ closest ∈ c0 :: cs ∧
      ∀ c ∈ c0 :: cs,
        Coordinate.distSq g closest stop ≤ Coordinate.distSq g c stop := by
  obtain ⟨hmem, hle0, hall⟩ := foldl_minBy_spec g stop cs c0
  refine ⟨_, rfl, hmem, ?_⟩
  intro c hc
  rcases List.mem_cons.mp hc with h2 | h2
  · subst h2
    exact hle0
  · exact hall c h2

/-- Empty state of the C4 witness. -/
def C4st1 : AStarState := ⟨[], [], [], [], [], []⟩

/-- Exhausted-but-alive state of the C4 witness: one discovered frontier
cell recorded in cameFrom/gScore/fScore and still queued. -/
def C4st2 : AStarState :=
  ⟨[(⟨1, 0⟩, ⟨0, 0⟩)], [(⟨1, 0⟩, (1 : ℚ))], [(⟨1, 0⟩, ⟨1, 25⟩)],
    [⟨⟨1, 0⟩, ⟨1, 25⟩⟩], [], []⟩

/-- Pathfinder inputs of the C4 witness (start equals the goal, so the
search reports no end coordinate). -/
def C4pfdW : PathFinderData :=
  ⟨emptyDynamicMap, ⟨0, 0⟩, 1, 0, 100, 100, 1, 0, 0, 5, []⟩

/-- C4 (amended): when the search produces no end coordinate the function
returns skip rather than raising (in particular whenever the open set
empties without reaching the goal); an empty open set makes the fallback
report no path; and when the iteration budget is exhausted with a
non-empty open set, the fallback target is the minimal-heuristic element
of the cells that were DISCOVERED and recorded in cameFrom (relaxed
frontier cells included) — not of the already-expanded cells as the claim
words it. -/
theorem C4_fallback_amended (g : Dims) (pfd : PathFinderData) (stop : Coordinate)
    (ignoreMarker : Bool) (shuffles : Nat → List NbrEntry → List NbrEntry)
    (res : AStarResult) (st1 st2 : AStarState) (c0 : Coordinate)
    (cs : List Coordinate)
    (hres : (AStarBody g pfd.map pfd.start stop
        (calculateTravelConstantCosts pfd.agentSpeed pfd.clearEnergyCost
          pfd.agentEnergy pfd.agentMaxEnergy pfd.clearChance pfd.clearConstantCost).1
        (calculateTravelConstantCosts pfd.agentSpeed pfd.clearEnergyCost
          pfd.agentEnergy pfd.agentMaxEnergy pfd.clearChance
          pfd.clearConstantCost).2.1
        (calculateTravelConstantCosts pfd.agentSpeed pfd.clearEnergyCost
          pfd.agentEnergy pfd.agentMaxEnergy pfd.clearChance
          pfd.clearConstantCost).2.2
        pfd.maxIteration pfd.agentVision ignoreMarker pfd.attachedCoordinates
        shuffles).1 = some res)
    (hend : res.endCoordinate = none)
    (hempty : st1.openSet = [])
    (hne : st2.openSet ≠ [])
    (hfilter : (dictKeys st2.fScore).filter (fun c => dictContains st2.cameFrom c) =
      c0 :: cs) :
    findNextAction g pfd stop ignoreMarker shuffles = some AgentAction.skip ∧
      AStarFallback g stop st1 = some ⟨none, st1.cameFrom, none, st1.rotations⟩ ∧
      ∃ closest, minByDistSq g stop (c0 :: cs) = some closest ∧
        closest ∈ c0 :: cs ∧
        (∀ c ∈ c0 :: cs,
          Coordinate.distSq g closest stop ≤ Coordinate.distSq g c stop) ∧
        AStarFallback g stop st2 =
          some ⟨some ((dictGet? st2.gScore closest).getD 0), st2.cameFrom,
            some closest, st2.rotations⟩ := by
  refine ⟨?_, ?_, ?_⟩
  · simp only [findNextAction, hres, hend]
  · have hmt : st1.openSet.isEmpty = true := by
      rw [hempty]
      rfl
    simp [AStarFallback, hmt]
  · obtain ⟨closest, heq, hmem, hmin⟩ := minByDistSq_spec g stop c0 cs
    refine ⟨closest, heq, hmem, hmin, ?_⟩
    have hcond : ¬ st2.openSet.isEmpty = true := by
      rcases hop : st2.openSet with _ | ⟨n, rest⟩
      · exact absurd hop hne
      · simp
    rw [AStarFallback, if_pos hcond, hfilter, heq]

theorem C4_fallback_amended_witness :
    findNextAction ⟨none, none⟩ C4pfdW ⟨0, 0⟩ false C4shuffles =
        some AgentAction.skip ∧
      AStarFallback ⟨none, none⟩ ⟨0, 0⟩ C4st1 =
        some ⟨none, C4st1.cameFrom, none, C4st1.rotations⟩ ∧
      ∃ closest, minByDistSq ⟨none, none⟩ ⟨0, 0⟩ (⟨1, 0⟩ :: []) = some closest ∧
        closest ∈ (⟨1, 0⟩ :: ([] : List Coordinate)) ∧
        (∀ c ∈ (⟨1, 0⟩ :: ([] : List Coordinate)),
          Coordinate.distSq ⟨none, none⟩ closest ⟨0, 0⟩ ≤
            Coordinate.distSq ⟨none, none⟩ c ⟨0, 0⟩) ∧
        AStarFallback ⟨none, none⟩ ⟨0, 0⟩ C4st2 =
          some ⟨some ((dictGet? C4st2.gScore closest).getD 0), C4st2.cameFrom,
            some closest, C4st2.rotations⟩ :=
  C4_fallback_amended ⟨none, none⟩ C4pfdW ⟨0, 0⟩ false C4shuffles
    ⟨none, [], none, []⟩ C4st1 C4st2 ⟨1, 0⟩ [] (by decide) rfl rfl (by decide)
    (by decide)

end MMD
